import Mathlib

/-!
# cse4001_sync: semaphore protocols as transition systems

A shallow embedding of `cse4001_sync.cpp`.  Every worker thread is a small
program-counter machine; one transition is one semaphore `wait`/`signal`, one
mutex `lock`/`unlock`, one update or test of a shared counter, or one `printf`.
`msleep` does not touch shared state and takes no transition of its own.  The
loop bookkeeping of `for (int i=0;i<K;i++)` (increment, test) is local to the
thread and is performed together with the last statement of the loop body.
A thread that has been created but has not yet run is indistinguishable from
one sitting at its first statement, so all threads exist in the initial state.
-/

set_option linter.all false

namespace Sync

/-! ## Primitives -/

/-- Local state of one worker thread: where it is, and its loop variable `i`. -/
structure Thread (Pc : Type) where
  pc : Pc
  i : Nat
  deriving DecidableEq

/-! `Semaphore::wait` (`sem_wait`) is modelled by a transition that is enabled
only while the value is positive and then decrements it; `Semaphore::signal`
(`sem_post`) by a transition that increments it.  `pthread_mutex_lock` is
enabled only while the mutex is free (`false`) and sets it to `true`;
`pthread_mutex_unlock` sets it back to `false`. -/

/-- End of one pass through `for (int i=0;i<bound;i++) { ... }`: increment `i`
and either go back to the first statement of the body or leave the loop. -/
def nextIter {Pc : Type} (bound : Nat) (top fin : Pc) (i : Nat) : Thread Pc :=
  if i + 1 < bound then ⟨top, i + 1⟩ else ⟨fin, i + 1⟩

/-- Number of threads `k` (of five) whose local state satisfies `g k`. -/
def tally {α : Type} (g : Fin 5 → α → Bool) (f : Fin 5 → α) : Nat :=
  ∑ k : Fin 5, if g k (f k) = true then 1 else 0

/-- Number of threads (of five) that are at program counter `X`. -/
def countAt {Pc : Type} [DecidableEq Pc] (f : Fin 5 → Thread Pc) (X : Pc) : Nat :=
  tally (fun _ t => decide (t.pc = X)) f

/-! ## Problem 1: no-starve readers-writers -/

namespace NoStarveRW

/-- Program points of `NoStarveRW::reader`; each names the statement the
thread executes next. -/
inductive RPc
  | turnstileWait    -- turnstile.wait()
  | turnstileSignal  -- turnstile.signal()
  | lockIn           -- pthread_mutex_lock(&readersMutex)
  | incr             -- readersCount++
  | testFirst        -- if (readersCount == 1)
  | roomWait         -- roomEmpty.wait()
  | unlockIn         -- pthread_mutex_unlock(&readersMutex)
  | read             -- printf("Reader %ld: reading (iteration %d)")
  | lockOut          -- pthread_mutex_lock(&readersMutex)
  | decr             -- readersCount--
  | testLast         -- if (readersCount == 0)
  | roomSignal       -- roomEmpty.signal()
  | unlockOut        -- pthread_mutex_unlock(&readersMutex)
  | done             -- return nullptr
  deriving DecidableEq, Repr

/-- Program points of `NoStarveRW::writer`. -/
inductive WPc
  | turnstileWait    -- turnstile.wait()
  | roomWait         -- roomEmpty.wait()
  | turnstileSignal  -- turnstile.signal()
  | write            -- printf("Writer %ld: writing (iteration %d)")
  | roomSignal       -- roomEmpty.signal()
  | done             -- return nullptr
  deriving DecidableEq, Repr

/-- One line written to standard output. -/
inductive Event
  | reading (who : Nat) (iteration : Nat)
  | writing (who : Nat) (iteration : Nat)
  deriving DecidableEq, Repr

/-- Globals of namespace `NoStarveRW`, the ten threads and the output so far. -/
structure State where
  turnstile : Nat
  roomEmpty : Nat
  readersMutex : Bool
  readersCount : Int
  readers : Fin 5 → Thread RPc
  writers : Fin 5 → Thread WPc
  out : List Event

/-- State at the start of `NoStarveRW::run`. -/
def init : State where
  turnstile := 1
  roomEmpty := 1
  readersMutex := false
  readersCount := 0
  readers := fun _ => ⟨RPc.turnstileWait, 0⟩
  writers := fun _ => ⟨WPc.turnstileWait, 0⟩
  out := []

/-- One transition of the reader thread created with `i = k` (its `me` is
`k + 1`); `none` when the thread is blocked or has returned. -/
def reader (k : Fin 5) (s : State) : Option State :=
  let t := s.readers k
  match t.pc with
  | RPc.turnstileWait =>
    if 0 < s.turnstile then
      some { s with turnstile := s.turnstile - 1,
                    readers := Function.update s.readers k ⟨RPc.turnstileSignal, t.i⟩ }
    else none
  | RPc.turnstileSignal =>
    some { s with turnstile := s.turnstile + 1,
                  readers := Function.update s.readers k ⟨RPc.lockIn, t.i⟩ }
  | RPc.lockIn =>
    if s.readersMutex then none
    else some { s with readersMutex := true,
                       readers := Function.update s.readers k ⟨RPc.incr, t.i⟩ }
  | RPc.incr =>
    some { s with readersCount := s.readersCount + 1,
                  readers := Function.update s.readers k ⟨RPc.testFirst, t.i⟩ }
  | RPc.testFirst =>
    if s.readersCount = 1 then
      some { s with readers := Function.update s.readers k ⟨RPc.roomWait, t.i⟩ }
    else some { s with readers := Function.update s.readers k ⟨RPc.unlockIn, t.i⟩ }
  | RPc.roomWait =>
    if 0 < s.roomEmpty then
      some { s with roomEmpty := s.roomEmpty - 1,
                    readers := Function.update s.readers k ⟨RPc.unlockIn, t.i⟩ }
    else none
  | RPc.unlockIn =>
    some { s with readersMutex := false,
                  readers := Function.update s.readers k ⟨RPc.read, t.i⟩ }
  | RPc.read =>
    some { s with out := s.out ++ [Event.reading (k.val + 1) (t.i + 1)],
                  readers := Function.update s.readers k ⟨RPc.lockOut, t.i⟩ }
  | RPc.lockOut =>
    if s.readersMutex then none
    else some { s with readersMutex := true,
                       readers := Function.update s.readers k ⟨RPc.decr, t.i⟩ }
  | RPc.decr =>
    some { s with readersCount := s.readersCount - 1,
                  readers := Function.update s.readers k ⟨RPc.testLast, t.i⟩ }
  | RPc.testLast =>
    if s.readersCount = 0 then
      some { s with readers := Function.update s.readers k ⟨RPc.roomSignal, t.i⟩ }
    else some { s with readers := Function.update s.readers k ⟨RPc.unlockOut, t.i⟩ }
  | RPc.roomSignal =>
    some { s with roomEmpty := s.roomEmpty + 1,
                  readers := Function.update s.readers k ⟨RPc.unlockOut, t.i⟩ }
  | RPc.unlockOut =>
    some { s with readersMutex := false,
                  readers := Function.update s.readers k
                    (nextIter 5 RPc.turnstileWait RPc.done t.i) }
  | RPc.done => none

/-- One transition of the writer thread created with `i = k`. -/
def writer (k : Fin 5) (s : State) : Option State :=
  let t := s.writers k
  match t.pc with
  | WPc.turnstileWait =>
    if 0 < s.turnstile then
      some { s with turnstile := s.turnstile - 1,
                    writers := Function.update s.writers k ⟨WPc.roomWait, t.i⟩ }
    else none
  | WPc.roomWait =>
    if 0 < s.roomEmpty then
      some { s with roomEmpty := s.roomEmpty - 1,
                    writers := Function.update s.writers k ⟨WPc.turnstileSignal, t.i⟩ }
    else none
  | WPc.turnstileSignal =>
    some { s with turnstile := s.turnstile + 1,
                  writers := Function.update s.writers k ⟨WPc.write, t.i⟩ }
  | WPc.write =>
    some { s with out := s.out ++ [Event.writing (k.val + 1) (t.i + 1)],
                  writers := Function.update s.writers k ⟨WPc.roomSignal, t.i⟩ }
  | WPc.roomSignal =>
    some { s with roomEmpty := s.roomEmpty + 1,
                  writers := Function.update s.writers k
                    (nextIter 5 WPc.turnstileWait WPc.done t.i) }
  | WPc.done => none

/-- One step of the whole system: some reader or some writer takes a
transition. -/
def Step (s s' : State) : Prop :=
  (∃ k : Fin 5, reader k s = some s') ∨ (∃ k : Fin 5, writer k s = some s')

/-- States reachable from `init` under any interleaving. -/
inductive Reachable : State → Prop
  | init : Reachable init
  | step {s s' : State} : Reachable s → Step s s' → Reachable s'

/-- All ten threads have left their loops. -/
def AllDone (s : State) : Prop :=
  (∀ k : Fin 5, (s.readers k).pc = RPc.done ∧ (s.readers k).i = 5)
    ∧ (∀ k : Fin 5, (s.writers k).pc = WPc.done ∧ (s.writers k).i = 5)

/-- Number of writers between a completed `roomEmpty.wait()` and their
`roomEmpty.signal()`. -/
def writersInside (s : State) : Nat :=
  countAt s.writers WPc.turnstileSignal + countAt s.writers WPc.write
    + countAt s.writers WPc.roomSignal

/-- Number of readers between the unlock that ends the entry section and the
lock that starts the exit section. -/
def readersInside (s : State) : Nat :=
  countAt s.readers RPc.read + countAt s.readers RPc.lockOut

end NoStarveRW

/-! ## Problem 2: writer-priority readers-writers -/

namespace WriterPriorityRW

/-- Program points of `WriterPriorityRW::reader`. -/
inductive RPc
  | queueWait    -- readersQueue.wait()
  | queueSignal  -- readersQueue.signal()
  | lockIn       -- pthread_mutex_lock(&readerMutex)
  | incr         -- readersCount++
  | testFirst    -- if (readersCount == 1)
  | roomWait     -- roomEmpty.wait()
  | unlockIn     -- pthread_mutex_unlock(&readerMutex)
  | read         -- printf("Reader %ld: reading (iteration %d)")
  | lockOut      -- pthread_mutex_lock(&readerMutex)
  | decr         -- readersCount--
  | testLast     -- if (readersCount == 0)
  | roomSignal   -- roomEmpty.signal()
  | unlockOut    -- pthread_mutex_unlock(&readerMutex)
  | done         -- return nullptr
  deriving DecidableEq, Repr

/-- Program points of `WriterPriorityRW::writer`. -/
inductive WPc
  | lockIn       -- pthread_mutex_lock(&writerMutex)
  | incr         -- writersCount++
  | testFirst    -- if (writersCount == 1)
  | queueWait    -- readersQueue.wait()
  | unlockIn     -- pthread_mutex_unlock(&writerMutex)
  | roomWait     -- roomEmpty.wait()
  | write        -- printf("Writer %ld: writing (iteration %d)")
  | roomSignal   -- roomEmpty.signal()
  | lockOut      -- pthread_mutex_lock(&writerMutex)
  | decr         -- writersCount--
  | testLast     -- if (writersCount == 0)
  | queueSignal  -- readersQueue.signal()
  | unlockOut    -- pthread_mutex_unlock(&writerMutex)
  | done         -- return nullptr
  deriving DecidableEq, Repr

/-- One line written to standard output. -/
inductive Event
  | reading (who : Nat) (iteration : Nat)
  | writing (who : Nat) (iteration : Nat)
  deriving DecidableEq, Repr

/-- Globals of namespace `WriterPriorityRW`, the ten threads and the output. -/
structure State where
  roomEmpty : Nat
  readerMutex : Bool
  readersCount : Int
  writerMutex : Bool
  writersCount : Int
  readersQueue : Nat
  readers : Fin 5 → Thread RPc
  writers : Fin 5 → Thread WPc
  out : List Event

/-- State at the start of `WriterPriorityRW::run`. -/
def init : State where
  roomEmpty := 1
  readerMutex := false
  readersCount := 0
  writerMutex := false
  writersCount := 0
  readersQueue := 1
  readers := fun _ => ⟨RPc.queueWait, 0⟩
  writers := fun _ => ⟨WPc.lockIn, 0⟩
  out := []

/-- One transition of the reader thread created with `i = k`. -/
def reader (k : Fin 5) (s : State) : Option State :=
  let t := s.readers k
  match t.pc with
  | RPc.queueWait =>
    if 0 < s.readersQueue then
      some { s with readersQueue := s.readersQueue - 1,
                    readers := Function.update s.readers k ⟨RPc.queueSignal, t.i⟩ }
    else none
  | RPc.queueSignal =>
    some { s with readersQueue := s.readersQueue + 1,
                  readers := Function.update s.readers k ⟨RPc.lockIn, t.i⟩ }
  | RPc.lockIn =>
    if s.readerMutex then none
    else some { s with readerMutex := true,
                       readers := Function.update s.readers k ⟨RPc.incr, t.i⟩ }
  | RPc.incr =>
    some { s with readersCount := s.readersCount + 1,
                  readers := Function.update s.readers k ⟨RPc.testFirst, t.i⟩ }
  | RPc.testFirst =>
    if s.readersCount = 1 then
      some { s with readers := Function.update s.readers k ⟨RPc.roomWait, t.i⟩ }
    else some { s with readers := Function.update s.readers k ⟨RPc.unlockIn, t.i⟩ }
  | RPc.roomWait =>
    if 0 < s.roomEmpty then
      some { s with roomEmpty := s.roomEmpty - 1,
                    readers := Function.update s.readers k ⟨RPc.unlockIn, t.i⟩ }
    else none
  | RPc.unlockIn =>
    some { s with readerMutex := false,
                  readers := Function.update s.readers k ⟨RPc.read, t.i⟩ }
  | RPc.read =>
    some { s with out := s.out ++ [Event.reading (k.val + 1) (t.i + 1)],
                  readers := Function.update s.readers k ⟨RPc.lockOut, t.i⟩ }
  | RPc.lockOut =>
    if s.readerMutex then none
    else some { s with readerMutex := true,
                       readers := Function.update s.readers k ⟨RPc.decr, t.i⟩ }
  | RPc.decr =>
    some { s with readersCount := s.readersCount - 1,
                  readers := Function.update s.readers k ⟨RPc.testLast, t.i⟩ }
  | RPc.testLast =>
    if s.readersCount = 0 then
      some { s with readers := Function.update s.readers k ⟨RPc.roomSignal, t.i⟩ }
    else some { s with readers := Function.update s.readers k ⟨RPc.unlockOut, t.i⟩ }
  | RPc.roomSignal =>
    some { s with roomEmpty := s.roomEmpty + 1,
                  readers := Function.update s.readers k ⟨RPc.unlockOut, t.i⟩ }
  | RPc.unlockOut =>
    some { s with readerMutex := false,
                  readers := Function.update s.readers k
                    (nextIter 5 RPc.queueWait RPc.done t.i) }
  | RPc.done => none

/-- One transition of the writer thread created with `i = k`. -/
def writer (k : Fin 5) (s : State) : Option State :=
  let t := s.writers k
  match t.pc with
  | WPc.lockIn =>
    if s.writerMutex then none
    else some { s with writerMutex := true,
                       writers := Function.update s.writers k ⟨WPc.incr, t.i⟩ }
  | WPc.incr =>
    some { s with writersCount := s.writersCount + 1,
                  writers := Function.update s.writers k ⟨WPc.testFirst, t.i⟩ }
  | WPc.testFirst =>
    if s.writersCount = 1 then
      some { s with writers := Function.update s.writers k ⟨WPc.queueWait, t.i⟩ }
    else some { s with writers := Function.update s.writers k ⟨WPc.unlockIn, t.i⟩ }
  | WPc.queueWait =>
    if 0 < s.readersQueue then
      some { s with readersQueue := s.readersQueue - 1,
                    writers := Function.update s.writers k ⟨WPc.unlockIn, t.i⟩ }
    else none
  | WPc.unlockIn =>
    some { s with writerMutex := false,
                  writers := Function.update s.writers k ⟨WPc.roomWait, t.i⟩ }
  | WPc.roomWait =>
    if 0 < s.roomEmpty then
      some { s with roomEmpty := s.roomEmpty - 1,
                    writers := Function.update s.writers k ⟨WPc.write, t.i⟩ }
    else none
  | WPc.write =>
    some { s with out := s.out ++ [Event.writing (k.val + 1) (t.i + 1)],
                  writers := Function.update s.writers k ⟨WPc.roomSignal, t.i⟩ }
  | WPc.roomSignal =>
    some { s with roomEmpty := s.roomEmpty + 1,
                  writers := Function.update s.writers k ⟨WPc.lockOut, t.i⟩ }
  | WPc.lockOut =>
    if s.writerMutex then none
    else some { s with writerMutex := true,
                       writers := Function.update s.writers k ⟨WPc.decr, t.i⟩ }
  | WPc.decr =>
    some { s with writersCount := s.writersCount - 1,
                  writers := Function.update s.writers k ⟨WPc.testLast, t.i⟩ }
  | WPc.testLast =>
    if s.writersCount = 0 then
      some { s with writers := Function.update s.writers k ⟨WPc.queueSignal, t.i⟩ }
    else some { s with writers := Function.update s.writers k ⟨WPc.unlockOut, t.i⟩ }
  | WPc.queueSignal =>
    some { s with readersQueue := s.readersQueue + 1,
                  writers := Function.update s.writers k ⟨WPc.unlockOut, t.i⟩ }
  | WPc.unlockOut =>
    some { s with writerMutex := false,
                  writers := Function.update s.writers k
                    (nextIter 5 WPc.lockIn WPc.done t.i) }
  | WPc.done => none

/-- One step of the whole system: some reader or some writer takes a
transition. -/
def Step (s s' : State) : Prop :=
  (∃ k : Fin 5, reader k s = some s') ∨ (∃ k : Fin 5, writer k s = some s')

/-- States reachable from `init` under any interleaving. -/
inductive Reachable : State → Prop
  | init : Reachable init
  | step {s s' : State} : Reachable s → Step s s' → Reachable s'

/-- All ten threads have left their loops. -/
def AllDone (s : State) : Prop :=
  (∀ k : Fin 5, (s.readers k).pc = RPc.done ∧ (s.readers k).i = 5)
    ∧ (∀ k : Fin 5, (s.writers k).pc = WPc.done ∧ (s.writers k).i = 5)

/-- Number of writers between a completed `roomEmpty.wait()` and their
`roomEmpty.signal()`. -/
def writersInside (s : State) : Nat :=
  countAt s.writers WPc.write + countAt s.writers WPc.roomSignal

/-- Number of readers in their read section: after the unlock that follows
`readersCount++`, before the lock that precedes `readersCount--`. -/
def readersInside (s : State) : Nat :=
  countAt s.readers RPc.read + countAt s.readers RPc.lockOut

/-- Number of readers that have completed `readersQueue.wait()` and not yet
executed their `readersQueue.signal()`. -/
def readersHoldingQueue (s : State) : Nat :=
  countAt s.readers RPc.queueSignal

/-- Number of writers that have executed `writersCount++` and have not yet
got past `if (writersCount == 1) readersQueue.wait();`. -/
def writersEntering (s : State) : Nat :=
  countAt s.writers WPc.testFirst + countAt s.writers WPc.queueWait

end WriterPriorityRW

/-! ## Problem 3: dining philosophers, at most four seated -/

namespace Dining1

/-- Program points of `Dining1::philosopher`; each names the statement the
thread executes next. -/
inductive Pc
  | think        -- printf("Philosopher %ld: Thinking")
  | roomWait     -- room.wait()
  | leftWait     -- forks[left].wait()
  | rightWait    -- forks[right].wait()
  | eat          -- printf("Philosopher %ld: Eating (iteration %d)")
  | rightSignal  -- forks[right].signal()
  | leftSignal   -- forks[left].signal()
  | roomSignal   -- room.signal()
  | done         -- return nullptr
  deriving DecidableEq, Repr

/-- One line written to standard output. -/
inductive Event
  | thinking (who : Nat)
  | eating (who : Nat) (iteration : Nat)
  deriving DecidableEq, Repr

/-- Globals of namespace `Dining1`, the five threads and the output so far. -/
structure State where
  forks : Fin 5 → Nat
  room : Nat
  phil : Fin 5 → Thread Pc
  out : List Event

/-- Source: `int left = me;`. -/
def left (me : Fin 5) : Fin 5 := me

/-- Source: `int right = (me+1) % N;`. -/
def right (me : Fin 5) : Fin 5 := ⟨(me.val + 1) % 5, Nat.mod_lt _ (by decide)⟩

/-- State at the start of `Dining1::run`: `forks[k] = 1`, `room = 4`, every
philosopher about to enter its loop with `i = 0`. -/
def init : State where
  forks := fun _ => 1
  room := 4
  phil := fun _ => ⟨Pc.think, 0⟩
  out := []

/-- One transition of philosopher `me` (`me` is the thread argument, 0..4);
`none` when the thread is blocked or has returned. -/
def philosopher (me : Fin 5) (s : State) : Option State :=
  let t := s.phil me
  match t.pc with
  | Pc.think =>
    some { s with out := s.out ++ [Event.thinking (me.val + 1)],
                  phil := Function.update s.phil me ⟨Pc.roomWait, t.i⟩ }
  | Pc.roomWait =>
    if 0 < s.room then
      some { s with room := s.room - 1, phil := Function.update s.phil me ⟨Pc.leftWait, t.i⟩ }
    else none
  | Pc.leftWait =>
    if 0 < s.forks (left me) then
      some { s with forks := Function.update s.forks (left me) (s.forks (left me) - 1),
                    phil := Function.update s.phil me ⟨Pc.rightWait, t.i⟩ }
    else none
  | Pc.rightWait =>
    if 0 < s.forks (right me) then
      some { s with forks := Function.update s.forks (right me) (s.forks (right me) - 1),
                    phil := Function.update s.phil me ⟨Pc.eat, t.i⟩ }
    else none
  | Pc.eat =>
    some { s with out := s.out ++ [Event.eating (me.val + 1) (t.i + 1)],
                  phil := Function.update s.phil me ⟨Pc.rightSignal, t.i⟩ }
  | Pc.rightSignal =>
    some { s with forks := Function.update s.forks (right me) (s.forks (right me) + 1),
                  phil := Function.update s.phil me ⟨Pc.leftSignal, t.i⟩ }
  | Pc.leftSignal =>
    some { s with forks := Function.update s.forks (left me) (s.forks (left me) + 1),
                  phil := Function.update s.phil me ⟨Pc.roomSignal, t.i⟩ }
  | Pc.roomSignal =>
    some { s with room := s.room + 1,
                  phil := Function.update s.phil me (nextIter 6 Pc.think Pc.done t.i) }
  | Pc.done => none

/-- One step of the whole system: some philosopher takes a transition. -/
def Step (s s' : State) : Prop :=
  ∃ me : Fin 5, philosopher me s = some s'

/-- States reachable from `init` under any interleaving. -/
inductive Reachable : State → Prop
  | init : Reachable init
  | step {s s' : State} : Reachable s → Step s s' → Reachable s'

/-- Every philosopher has finished its 6 iterations and returned. -/
def AllDone (s : State) : Prop :=
  ∀ k : Fin 5, (s.phil k).pc = Pc.done ∧ (s.phil k).i = 6

/-- Philosopher `me`, at program point `pc`, is between a completed
`forks[f].wait()` and the matching `forks[f].signal()`. -/
def holds (me : Fin 5) : Pc → Fin 5 → Bool
  | Pc.rightWait, f => decide (f = left me)
  | Pc.eat, f => decide (f = left me) || decide (f = right me)
  | Pc.rightSignal, f => decide (f = left me) || decide (f = right me)
  | Pc.leftSignal, f => decide (f = left me)
  | _, _ => false

/-- Number of philosophers holding fork `f`. -/
def holders (s : State) (f : Fin 5) : Nat :=
  tally (fun k t => holds k t.pc f) s.phil

/-- Philosopher at `pc` is between its completed `room.wait()` and its
`room.signal()`. -/
def seated : Pc → Bool
  | Pc.leftWait => true
  | Pc.rightWait => true
  | Pc.eat => true
  | Pc.rightSignal => true
  | Pc.leftSignal => true
  | Pc.roomSignal => true
  | _ => false

/-- Number of philosophers past the capacity gate. -/
def occupancy (s : State) : Nat :=
  tally (fun _ t => seated t.pc) s.phil

end Dining1

/-! ## Problem 4: dining philosophers, asymmetric pick-up order -/

namespace Dining2

/-- Program points of `Dining2::philosopher`.  `firstWait` and `secondWait`
are the two `wait` calls of whichever branch of `if ((me % 2) == 0)` the
philosopher takes. -/
inductive Pc
  | think        -- printf("Philosopher %ld: Thinking")
  | firstWait    -- forks[right].wait() if me is even, forks[left].wait() if odd
  | secondWait   -- forks[left].wait() if me is even, forks[right].wait() if odd
  | eat          -- printf("Philosopher %ld: Eating (iteration %d)")
  | leftSignal   -- forks[left].signal()
  | rightSignal  -- forks[right].signal()
  | done         -- return nullptr
  deriving DecidableEq, Repr

/-- One line written to standard output. -/
inductive Event
  | thinking (who : Nat)
  | eating (who : Nat) (iteration : Nat)
  deriving DecidableEq, Repr

/-- Globals of namespace `Dining2`, the five threads and the output so far. -/
structure State where
  forks : Fin 5 → Nat
  phil : Fin 5 → Thread Pc
  out : List Event

/-- Source: `int left = me;`. -/
def left (me : Fin 5) : Fin 5 := me

/-- Source: `int right = (me+1) % N;`. -/
def right (me : Fin 5) : Fin 5 := ⟨(me.val + 1) % 5, Nat.mod_lt _ (by decide)⟩

/-- Fork taken first: `if ((me % 2) == 0)` the right one, else the left one. -/
def first (me : Fin 5) : Fin 5 :=
  if me.val % 2 = 0 then right me else left me

/-- Fork taken second: the left one for even `me`, the right one for odd. -/
def second (me : Fin 5) : Fin 5 :=
  if me.val % 2 = 0 then left me else right me

/-- State at the start of `Dining2::run`. -/
def init : State where
  forks := fun _ => 1
  phil := fun _ => ⟨Pc.think, 0⟩
  out := []

/-- One transition of philosopher `me` (0..4); `none` when the thread is
blocked or has returned. -/
def philosopher (me : Fin 5) (s : State) : Option State :=
  let t := s.phil me
  match t.pc with
  | Pc.think =>
    some { s with out := s.out ++ [Event.thinking (me.val + 1)],
                  phil := Function.update s.phil me ⟨Pc.firstWait, t.i⟩ }
  | Pc.firstWait =>
    if 0 < s.forks (first me) then
      some { s with forks := Function.update s.forks (first me) (s.forks (first me) - 1),
                    phil := Function.update s.phil me ⟨Pc.secondWait, t.i⟩ }
    else none
  | Pc.secondWait =>
    if 0 < s.forks (second me) then
      some { s with forks := Function.update s.forks (second me) (s.forks (second me) - 1),
                    phil := Function.update s.phil me ⟨Pc.eat, t.i⟩ }
    else none
  | Pc.eat =>
    some { s with out := s.out ++ [Event.eating (me.val + 1) (t.i + 1)],
                  phil := Function.update s.phil me ⟨Pc.leftSignal, t.i⟩ }
  | Pc.leftSignal =>
    some { s with forks := Function.update s.forks (left me) (s.forks (left me) + 1),
                  phil := Function.update s.phil me ⟨Pc.rightSignal, t.i⟩ }
  | Pc.rightSignal =>
    some { s with forks := Function.update s.forks (right me) (s.forks (right me) + 1),
                  phil := Function.update s.phil me (nextIter 6 Pc.think Pc.done t.i) }
  | Pc.done => none

/-- One step of the whole system: some philosopher takes a transition. -/
def Step (s s' : State) : Prop :=
  ∃ me : Fin 5, philosopher me s = some s'

/-- States reachable from `init` under any interleaving. -/
inductive Reachable : State → Prop
  | init : Reachable init
  | step {s s' : State} : Reachable s → Step s s' → Reachable s'

/-- Every philosopher has finished its 6 iterations and returned. -/
def AllDone (s : State) : Prop :=
  ∀ k : Fin 5, (s.phil k).pc = Pc.done ∧ (s.phil k).i = 6

/-- Philosopher `me`, at program point `pc`, is between a completed
`forks[f].wait()` and the matching `forks[f].signal()`. -/
def holds (me : Fin 5) : Pc → Fin 5 → Bool
  | Pc.secondWait, f => decide (f = first me)
  | Pc.eat, f => decide (f = left me) || decide (f = right me)
  | Pc.leftSignal, f => decide (f = left me) || decide (f = right me)
  | Pc.rightSignal, f => decide (f = right me)
  | _, _ => false

/-- Number of philosophers holding fork `f`. -/
def holders (s : State) (f : Fin 5) : Nat :=
  tally (fun k t => holds k t.pc f) s.phil

end Dining2

/-! ## The dispatcher -/

/-- The four coordinators `main` can start. -/
inductive Problem
  | noStarveRW
  | writerPriorityRW
  | dining1
  | dining2
  deriving DecidableEq, Repr

/-- What `main` writes to `stderr`. -/
inductive Diagnostic
  | usage          -- "Usage: %s <problem#> ..."
  | invalidNumber  -- "Invalid problem number. Choose 1..4"
  deriving DecidableEq, Repr

/-- Observable result of `main`: its return value, the coordinators whose
`run()` it called, and what it wrote to `stderr`. -/
structure Outcome where
  exitCode : Int
  ran : List Problem
  err : List Diagnostic
  deriving DecidableEq, Repr

/-- C `isspace` in the "C" locale: space, `\t`, `\n`, `\v`, `\f`, `\r`. -/
def isSpace (c : Char) : Bool :=
  c.toNat = 32 || (9 ≤ c.toNat && c.toNat ≤ 13)

/-- Value of the longest prefix of decimal digits, continuing from `acc`. -/
def digitsValue : List Char → Nat → Nat
  | [], acc => acc
  | c :: cs, acc =>
    if 48 ≤ c.toNat ∧ c.toNat ≤ 57 then digitsValue cs (acc * 10 + (c.toNat - 48)) else acc

/-- Conversion of a `long` to `int`: keep the low 32 bits, two's complement. -/
def toInt32 (v : Int) : Int :=
  (v + 2 ^ 31) % 2 ^ 32 - 2 ^ 31

/-- C library `strtol(nptr, NULL, 10)` with a 64-bit `long`: skip white space,
read an optional sign, then the longest run of decimal digits (0 if there is none);
a value outside the range of `long` saturates. -/
def strtol (nptr : String) : Int :=
  let cs := nptr.toList.dropWhile isSpace
  let v : Int :=
    match cs with
    | '-' :: ds => - (digitsValue ds 0 : Int)
    | '+' :: ds => (digitsValue ds 0 : Int)
    | ds => (digitsValue ds 0 : Int)
  max (-(2 ^ 63)) (min v (2 ^ 63 - 1))

/-- C library `atoi`, which is `(int) strtol(nptr, NULL, 10)`. -/
def atoi (nptr : String) : Int :=
  toInt32 (strtol nptr)

/-- The program entry point, on the argument vector `argv` (`argc` is its
length).  A call of `X::run()` is recorded in `ran`; `main` continues after
it only once `run` has joined all its threads. -/
def main (argv : List String) : Outcome :=
  match argv with
  | [_, arg] =>
    match atoi arg with
    | 1 => { exitCode := 0, ran := [Problem.noStarveRW], err := [] }
    | 2 => { exitCode := 0, ran := [Problem.writerPriorityRW], err := [] }
    | 3 => { exitCode := 0, ran := [Problem.dining1], err := [] }
    | 4 => { exitCode := 0, ran := [Problem.dining2], err := [] }
    | _ => { exitCode := 1, ran := [], err := [Diagnostic.invalidNumber] }
  | _ => { exitCode := 1, ran := [], err := [Diagnostic.usage] }

/-! ### Shared auxiliary definitions -/

/-- A thread with loop bound `bound` is past its loop exactly when `i = bound`. -/
def Thread.InLoop {Pc : Type} (bound : Nat) (fin : Pc) (t : Thread Pc) : Prop :=
  (t.pc = fin → t.i = bound) ∧ (t.pc ≠ fin → t.i < bound)

/-! ### Invariants and auxiliary definitions: no-starve readers-writers -/

namespace NoStarveRW

/-- Inductive invariant of the fair readers-writers protocol. -/
structure Inv (s : State) : Prop where
  mutex : s.readersMutex = true
      ↔ countAt s.readers RPc.incr + countAt s.readers RPc.testFirst
        + countAt s.readers RPc.roomWait + countAt s.readers RPc.unlockIn
        + countAt s.readers RPc.decr + countAt s.readers RPc.testLast
        + countAt s.readers RPc.roomSignal + countAt s.readers RPc.unlockOut = 1
  holder : countAt s.readers RPc.incr + countAt s.readers RPc.testFirst
        + countAt s.readers RPc.roomWait + countAt s.readers RPc.unlockIn
        + countAt s.readers RPc.decr + countAt s.readers RPc.testLast
        + countAt s.readers RPc.roomSignal + countAt s.readers RPc.unlockOut ≤ 1
  count : s.readersCount
      = ((countAt s.readers RPc.testFirst + countAt s.readers RPc.roomWait
        + countAt s.readers RPc.unlockIn + countAt s.readers RPc.read
        + countAt s.readers RPc.lockOut + countAt s.readers RPc.decr : Nat) : Int)
  free : countAt s.readers RPc.unlockIn + countAt s.readers RPc.read
        + countAt s.readers RPc.lockOut + countAt s.readers RPc.decr
        + countAt s.readers RPc.testLast + countAt s.readers RPc.roomSignal = 0
      → s.roomEmpty + (countAt s.writers WPc.turnstileSignal + countAt s.writers WPc.write
          + countAt s.writers WPc.roomSignal) = 1
  shared : 0 < countAt s.readers RPc.unlockIn + countAt s.readers RPc.read
        + countAt s.readers RPc.lockOut + countAt s.readers RPc.decr
        + countAt s.readers RPc.testLast + countAt s.readers RPc.roomSignal
      → s.roomEmpty + (countAt s.writers WPc.turnstileSignal + countAt s.writers WPc.write
          + countAt s.writers WPc.roomSignal) = 0
  turnstile : s.turnstile + countAt s.readers RPc.turnstileSignal
      + countAt s.writers WPc.roomWait + countAt s.writers WPc.turnstileSignal = 1
  first : 0 < countAt s.readers RPc.roomWait → s.readersCount = 1
  last : 0 < countAt s.readers RPc.roomSignal → s.readersCount = 0

/-- Loop counters agree with program counters. -/
def IterInv (s : State) : Prop :=
  (∀ k, (s.readers k).InLoop 5 RPc.done) ∧ (∀ k, (s.writers k).InLoop 5 WPc.done)

/-- What keeps a reader at program point `pc` from moving. -/
def readerBlocked (s : State) : RPc → Prop
  | RPc.turnstileWait => s.turnstile = 0
  | RPc.lockIn => s.readersMutex = true
  | RPc.roomWait => s.roomEmpty = 0
  | RPc.lockOut => s.readersMutex = true
  | RPc.done => True
  | _ => False

/-- What keeps a writer at program point `pc` from moving. -/
def writerBlocked (s : State) : WPc → Prop
  | WPc.turnstileWait => s.turnstile = 0
  | WPc.roomWait => s.roomEmpty = 0
  | WPc.done => True
  | _ => False

/-- A thread of the system. -/
inductive Actor
  | reader (k : Fin 5)
  | writer (k : Fin 5)

/-- Let `a` take one transition if it can; otherwise leave the state alone. -/
def exec (a : Actor) (s : State) : State :=
  match a with
  | Actor.reader k => (reader k s).getD s
  | Actor.writer k => (writer k s).getD s

/-- Run a schedule from `s`, skipping the entries that are not enabled. -/
def run (l : List Actor) (s : State) : State :=
  l.foldl (fun s a => exec a s) s

/-- The state in which writer 0 has passed `turnstile.wait()` and
`roomEmpty.wait()` and is about to signal the turnstile. -/
def writerInside : State :=
  run [Actor.writer 0, Actor.writer 0] init

/-- What reader number `who` prints in its five iterations. -/
def readerLines (who : Nat) : List Event :=
  (List.range 5).map (fun i => Event.reading who (i + 1))

/-- What writer number `who` prints in its five iterations. -/
def writerLines (who : Nat) : List Event :=
  (List.range 5).map (fun i => Event.writing who (i + 1))

/-- The state in which the first `n` readers and then the first `m` writers
have run to completion, one after the other, and the others have not
started. -/
def afterThreads (n m : Nat) : State where
  turnstile := 1
  roomEmpty := 1
  readersMutex := false
  readersCount := 0
  readers := fun j => if j.val < n then ⟨RPc.done, 5⟩ else ⟨RPc.turnstileWait, 0⟩
  writers := fun j => if j.val < m then ⟨WPc.done, 5⟩ else ⟨WPc.turnstileWait, 0⟩
  out := (List.range n).bind (fun j => readerLines (j + 1))
    ++ (List.range m).bind (fun j => writerLines (j + 1))

/-- Two states agree on every component. -/
def State.Agree (s t : State) : Prop :=
  s.turnstile = t.turnstile ∧ s.roomEmpty = t.roomEmpty ∧ s.readersMutex = t.readersMutex
    ∧ s.readersCount = t.readersCount
    ∧ (∀ k, s.readers k = t.readers k) ∧ (∀ k, s.writers k = t.writers k) ∧ s.out = t.out

instance (s t : State) : Decidable (State.Agree s t) := by
  unfold State.Agree
  infer_instance

instance (s : State) : Decidable (AllDone s) := by
  unfold AllDone
  infer_instance

end NoStarveRW

/-! ### Invariants and auxiliary definitions: writer-priority readers-writers -/

namespace WriterPriorityRW

/-- Inductive invariant of the writer-priority protocol. -/
structure Inv (s : State) : Prop where
  rmutex : s.readerMutex = true
      ↔ countAt s.readers RPc.incr + countAt s.readers RPc.testFirst
        + countAt s.readers RPc.roomWait + countAt s.readers RPc.unlockIn
        + countAt s.readers RPc.decr + countAt s.readers RPc.testLast
        + countAt s.readers RPc.roomSignal + countAt s.readers RPc.unlockOut = 1
  rholder : countAt s.readers RPc.incr + countAt s.readers RPc.testFirst
        + countAt s.readers RPc.roomWait + countAt s.readers RPc.unlockIn
        + countAt s.readers RPc.decr + countAt s.readers RPc.testLast
        + countAt s.readers RPc.roomSignal + countAt s.readers RPc.unlockOut ≤ 1
  wmutex : s.writerMutex = true
      ↔ countAt s.writers WPc.incr + countAt s.writers WPc.testFirst
        + countAt s.writers WPc.queueWait + countAt s.writers WPc.unlockIn
        + countAt s.writers WPc.decr + countAt s.writers WPc.testLast
        + countAt s.writers WPc.queueSignal + countAt s.writers WPc.unlockOut = 1
  wholder : countAt s.writers WPc.incr + countAt s.writers WPc.testFirst
        + countAt s.writers WPc.queueWait + countAt s.writers WPc.unlockIn
        + countAt s.writers WPc.decr + countAt s.writers WPc.testLast
        + countAt s.writers WPc.queueSignal + countAt s.writers WPc.unlockOut ≤ 1
  rcount : s.readersCount
      = ((countAt s.readers RPc.testFirst + countAt s.readers RPc.roomWait
        + countAt s.readers RPc.unlockIn + countAt s.readers RPc.read
        + countAt s.readers RPc.lockOut + countAt s.readers RPc.decr : Nat) : Int)
  wcount : s.writersCount
      = ((countAt s.writers WPc.testFirst + countAt s.writers WPc.queueWait
        + countAt s.writers WPc.unlockIn + countAt s.writers WPc.roomWait
        + countAt s.writers WPc.write + countAt s.writers WPc.roomSignal
        + countAt s.writers WPc.lockOut + countAt s.writers WPc.decr : Nat) : Int)
  free : countAt s.readers RPc.unlockIn + countAt s.readers RPc.read
        + countAt s.readers RPc.lockOut + countAt s.readers RPc.decr
        + countAt s.readers RPc.testLast + countAt s.readers RPc.roomSignal = 0
      → s.roomEmpty + (countAt s.writers WPc.write + countAt s.writers WPc.roomSignal) = 1
  shared : 0 < countAt s.readers RPc.unlockIn + countAt s.readers RPc.read
        + countAt s.readers RPc.lockOut + countAt s.readers RPc.decr
        + countAt s.readers RPc.testLast + countAt s.readers RPc.roomSignal
      → s.roomEmpty + (countAt s.writers WPc.write + countAt s.writers WPc.roomSignal) = 0
  gateOpen : countAt s.writers WPc.unlockIn + countAt s.writers WPc.roomWait
        + countAt s.writers WPc.write + countAt s.writers WPc.roomSignal
        + countAt s.writers WPc.lockOut + countAt s.writers WPc.decr
        + countAt s.writers WPc.testLast + countAt s.writers WPc.queueSignal = 0
      → s.readersQueue + countAt s.readers RPc.queueSignal = 1
  gateClosed : 0 < countAt s.writers WPc.unlockIn + countAt s.writers WPc.roomWait
        + countAt s.writers WPc.write + countAt s.writers WPc.roomSignal
        + countAt s.writers WPc.lockOut + countAt s.writers WPc.decr
        + countAt s.writers WPc.testLast + countAt s.writers WPc.queueSignal
      → s.readersQueue + countAt s.readers RPc.queueSignal = 0
  rfirst : 0 < countAt s.readers RPc.roomWait → s.readersCount = 1
  rlast : 0 < countAt s.readers RPc.roomSignal → s.readersCount = 0
  wfirst : 0 < countAt s.writers WPc.queueWait → s.writersCount = 1
  wlast : 0 < countAt s.writers WPc.queueSignal → s.writersCount = 0

/-- Loop counters agree with program counters. -/
def IterInv (s : State) : Prop :=
  (∀ k, (s.readers k).InLoop 5 RPc.done) ∧ (∀ k, (s.writers k).InLoop 5 WPc.done)

/-- What keeps a reader at program point `pc` from moving. -/
def readerBlocked (s : State) : RPc → Prop
  | RPc.queueWait => s.readersQueue = 0
  | RPc.lockIn => s.readerMutex = true
  | RPc.roomWait => s.roomEmpty = 0
  | RPc.lockOut => s.readerMutex = true
  | RPc.done => True
  | _ => False

/-- What keeps a writer at program point `pc` from moving. -/
def writerBlocked (s : State) : WPc → Prop
  | WPc.lockIn => s.writerMutex = true
  | WPc.queueWait => s.readersQueue = 0
  | WPc.roomWait => s.roomEmpty = 0
  | WPc.lockOut => s.writerMutex = true
  | WPc.done => True
  | _ => False

/-- A thread of the system. -/
inductive Actor
  | reader (k : Fin 5)
  | writer (k : Fin 5)

/-- Let `a` take one transition if it can; otherwise leave the state alone. -/
def exec (a : Actor) (s : State) : State :=
  match a with
  | Actor.reader k => (reader k s).getD s
  | Actor.writer k => (writer k s).getD s

/-- Run a schedule from `s`, skipping the entries that are not enabled. -/
def run (l : List Actor) (s : State) : State :=
  l.foldl (fun s a => exec a s) s

/-- The state after the first writer has locked `writerMutex` and executed
`writersCount++`, before its `if (writersCount == 1) readersQueue.wait()`. -/
def writerCounted : State :=
  run [Actor.writer 0, Actor.writer 0] init

/-- The state in which writer 0 has closed the gate, taken `roomEmpty` and is
about to write. -/
def writerInside : State :=
  run (List.replicate 6 (Actor.writer 0)) init

/-- The state in which writer 0 sits at `readersQueue.wait()` after having
counted itself. -/
def writerAtGate : State :=
  run (List.replicate 3 (Actor.writer 0)) init

/-- The state in which writer 0 has closed the gate and released
`writerMutex`. -/
def gateTaken : State :=
  run (List.replicate 5 (Actor.writer 0)) init

/-- What reader number `who` prints in its five iterations. -/
def readerLines (who : Nat) : List Event :=
  (List.range 5).map (fun i => Event.reading who (i + 1))

/-- What writer number `who` prints in its five iterations. -/
def writerLines (who : Nat) : List Event :=
  (List.range 5).map (fun i => Event.writing who (i + 1))

/-- The state in which the first `n` readers and then the first `m` writers
have run to completion, one after the other, and the others have not
started. -/
def afterThreads (n m : Nat) : State where
  roomEmpty := 1
  readerMutex := false
  readersCount := 0
  writerMutex := false
  writersCount := 0
  readersQueue := 1
  readers := fun j => if j.val < n then ⟨RPc.done, 5⟩ else ⟨RPc.queueWait, 0⟩
  writers := fun j => if j.val < m then ⟨WPc.done, 5⟩ else ⟨WPc.lockIn, 0⟩
  out := (List.range n).bind (fun j => readerLines (j + 1))
    ++ (List.range m).bind (fun j => writerLines (j + 1))

/-- Two states agree on every component. -/
def State.Agree (s t : State) : Prop :=
  s.roomEmpty = t.roomEmpty ∧ s.readerMutex = t.readerMutex ∧ s.readersCount = t.readersCount
    ∧ s.writerMutex = t.writerMutex ∧ s.writersCount = t.writersCount
    ∧ s.readersQueue = t.readersQueue
    ∧ (∀ k, s.readers k = t.readers k) ∧ (∀ k, s.writers k = t.writers k) ∧ s.out = t.out

instance (s t : State) : Decidable (State.Agree s t) := by
  unfold State.Agree
  infer_instance

instance (s : State) : Decidable (AllDone s) := by
  unfold AllDone
  infer_instance

end WriterPriorityRW

/-! ### Invariants and auxiliary definitions: dining philosophers, at most four seated -/

namespace Dining1

/-- Inductive invariant: the semaphores count the free permits and forks. -/
structure Inv (s : State) : Prop where
  room : s.room + occupancy s = 4
  fork : ∀ f, s.forks f + holders s f = 1

/-- Loop counters agree with program counters. -/
def IterInv (s : State) : Prop :=
  ∀ k, (s.phil k).InLoop 6 Pc.done

/-- What keeps philosopher `me` at program point `pc` from moving. -/
def blocked (s : State) (me : Fin 5) : Pc → Prop
  | Pc.roomWait => s.room = 0
  | Pc.leftWait => s.forks (left me) = 0
  | Pc.rightWait => s.forks (right me) = 0
  | Pc.done => True
  | _ => False

/-- Philosopher number printed in a line. -/
def Event.who : Event → Nat
  | Event.thinking w => w
  | Event.eating w _ => w

/-- The line is an "Eating" line. -/
def Event.isEating : Event → Bool
  | Event.eating _ _ => true
  | Event.thinking _ => false

/-- The lines of `out` printed by philosopher number `who`, in order. -/
def linesOf (who : Nat) (out : List Event) : List Event :=
  out.filter (fun e => decide (e.who = who))

/-- What philosopher number `who` prints in its first `n` iterations. -/
def rounds (who : Nat) : Nat → List Event
  | 0 => []
  | n + 1 => rounds who n ++ [Event.thinking who, Event.eating who (n + 1)]

/-- What philosopher number `who` has printed in the current iteration when
it is at program point `pc` with loop variable `i`. -/
def current (who : Nat) (i : Nat) : Pc → List Event
  | Pc.think => []
  | Pc.roomWait => [Event.thinking who]
  | Pc.leftWait => [Event.thinking who]
  | Pc.rightWait => [Event.thinking who]
  | Pc.eat => [Event.thinking who]
  | Pc.rightSignal => [Event.thinking who, Event.eating who (i + 1)]
  | Pc.leftSignal => [Event.thinking who, Event.eating who (i + 1)]
  | Pc.roomSignal => [Event.thinking who, Event.eating who (i + 1)]
  | Pc.done => []

/-- Everything philosopher number `who` has printed when its thread is `t`. -/
def printed (who : Nat) (t : Thread Pc) : List Event :=
  rounds who t.i ++ current who t.i t.pc

/-- Let philosopher `me` take one transition if it can; otherwise leave the
state alone. -/
def exec (me : Fin 5) (s : State) : State :=
  (philosopher me s).getD s

/-- Run a schedule from `s`. -/
def run (l : List (Fin 5)) (s : State) : State :=
  l.foldl (fun s me => exec me s) s

/-- The state in which the first `n` philosophers have run to completion, one
after the other, and the others have not started. -/
def afterPhilosophers (n : Nat) : State where
  forks := fun _ => 1
  room := 4
  phil := fun j => if j.val < n then ⟨Pc.done, 6⟩ else ⟨Pc.think, 0⟩
  out := (List.range n).bind (fun j => rounds (j + 1) 6)

/-- Two states agree on every component. -/
def State.Agree (s t : State) : Prop :=
  (∀ f, s.forks f = t.forks f) ∧ s.room = t.room ∧ (∀ k, s.phil k = t.phil k) ∧ s.out = t.out

instance (s t : State) : Decidable (State.Agree s t) := by
  unfold State.Agree
  infer_instance

/-- Every line so far is accounted for by its philosopher's position. -/
def TraceInv (s : State) : Prop :=
  (∀ k : Fin 5, linesOf (k.val + 1) s.out = printed (k.val + 1) (s.phil k))
    ∧ (∀ e ∈ s.out, 1 ≤ e.who ∧ e.who ≤ 5)

/-- Number of "Eating" lines of philosopher number `w` in `l`. -/
def eatingOf (w : Nat) (l : List Event) : Nat :=
  ((linesOf w l).filter Event.isEating).length

instance (s : State) : Decidable (AllDone s) := by
  unfold AllDone
  infer_instance

/-- Philosophers 0 to 3 hold their left forks and wait for their right forks;
philosopher 4 has thought and waits at the capacity gate. -/
def fourSeated : State :=
  run [0, 0, 0, 1, 1, 1, 2, 2, 2, 3, 3, 3, 4, 4] init

end Dining1

/-! ### Invariants and auxiliary definitions: dining philosophers, asymmetric pick-up order -/

namespace Dining2

/-- Inductive invariant: a fork's semaphore is 1 exactly when nobody holds it. -/
def Inv (s : State) : Prop :=
  ∀ f, s.forks f + holders s f = 1

/-- Loop counters agree with program counters. -/
def IterInv (s : State) : Prop :=
  ∀ k, (s.phil k).InLoop 6 Pc.done

/-- What keeps philosopher `me` at program point `pc` from moving. -/
def blocked (s : State) (me : Fin 5) : Pc → Prop
  | Pc.firstWait => s.forks (first me) = 0
  | Pc.secondWait => s.forks (second me) = 0
  | Pc.done => True
  | _ => False

/-- Let philosopher `me` take one transition if it can; otherwise leave the
state alone. -/
def exec (me : Fin 5) (s : State) : State :=
  (philosopher me s).getD s

/-- Run a schedule from `s`. -/
def run (l : List (Fin 5)) (s : State) : State :=
  l.foldl (fun s me => exec me s) s

/-- Philosophers 0, 2 and 4 hold their first fork (forks 1, 3 and 0);
philosophers 1 and 3 wait for forks 1 and 3. -/
def firstForksTaken : State :=
  run [0, 0, 1, 1, 2, 2, 3, 3, 4, 4] init

end Dining2

/-! ### Shared auxiliary definitions -/

/-- The selector as C8 words it: the argument `argv[1]`, when it is present,
is numeric (a non-empty run of decimal digits) and has the value 1, 2, 3 or 4.
A missing argument, a non-numeric one and any other value select nothing. -/
def specSelector (argv : List String) : Option Problem :=
  match argv[1]? with
  | none => none
  | some arg =>
    if arg.toList ≠ [] ∧ arg.toList.all (fun c => decide (48 ≤ c.toNat ∧ c.toNat ≤ 57)) then
      match digitsValue arg.toList 0 with
      | 1 => some Problem.noStarveRW
      | 2 => some Problem.writerPriorityRW
      | 3 => some Problem.dining1
      | 4 => some Problem.dining2
      | _ => none
    else none

/-- Exit code and coordinators run, as C8 words them: the selected coordinator
and 0, or nothing and 1. -/
def specDispatch (argv : List String) : Int × List Problem :=
  match specSelector argv with
  | some p => (0, [p])
  | none => (1, [])

/-! ## Theorems -/

/-! ### Statements and lemmas shared by the protocols -/

theorem tally_update {α : Type} (g : Fin 5 → α → Bool) (f : Fin 5 → α) (r : Fin 5) (v : α) :
    tally g (Function.update f r v) + (if g r (f r) = true then 1 else 0)
      = tally g f + (if g r v = true then 1 else 0) := by
  unfold tally
  rw [← Finset.add_sum_erase Finset.univ _ (Finset.mem_univ r),
      ← Finset.add_sum_erase Finset.univ (fun k => if g k (f k) = true then 1 else 0)
          (Finset.mem_univ r)]
  have hrest : ∀ k ∈ Finset.univ.erase r,
      (if g k (Function.update f r v k) = true then 1 else 0)
        = (if g k (f k) = true then (1 : Nat) else 0) := by
    intro k hk
    rw [Function.update_noteq (Finset.ne_of_mem_erase hk)]
  rw [Finset.sum_congr rfl hrest]
  simp
  omega

theorem tally_self_le {α : Type} (g : Fin 5 → α → Bool) (f : Fin 5 → α) (r : Fin 5) :
    (if g r (f r) = true then 1 else 0) ≤ tally g f := by
  unfold tally
  exact Finset.single_le_sum (f := fun k => if g k (f k) = true then 1 else 0)
    (fun _ _ => Nat.zero_le _) (Finset.mem_univ r)

theorem tally_update_eq {α : Type} (g : Fin 5 → α → Bool) (f : Fin 5 → α) (r : Fin 5) (v : α) :
    tally g (Function.update f r v)
      = tally g f - (if g r (f r) = true then 1 else 0) + (if g r v = true then 1 else 0) := by
  have h1 := tally_update g f r v
  have h2 := tally_self_le g f r
  omega

theorem tally_pos {α : Type} (g : Fin 5 → α → Bool) (f : Fin 5 → α) (h : 0 < tally g f) :
    ∃ k, g k (f k) = true := by
  by_contra hne
  push_neg at hne
  have : tally g f = 0 := by
    unfold tally
    apply Finset.sum_eq_zero
    intro k _
    simp [hne k]
  omega

theorem tally_eq_zero {α : Type} (g : Fin 5 → α → Bool) (f : Fin 5 → α)
    (h : ∀ k, g k (f k) = false) : tally g f = 0 := by
  unfold tally
  simp [h]

theorem some_getD {α : Type} (o : Option α) (d : α) (h : o.isSome = true) :
    o = some (o.getD d) := by
  cases o with
  | none => simp at h
  | some a => rfl

theorem tally_all {α : Type} (g : Fin 5 → α → Bool) (f : Fin 5 → α)
    (h : ∀ k, g k (f k) = true) : tally g f = 5 := by
  unfold tally
  simp [h]

theorem tally_eq_five {α : Type} (g : Fin 5 → α → Bool) (f : Fin 5 → α)
    (h : tally g f = 5) (k : Fin 5) : g k (f k) = true := by
  unfold tally at h
  simp only [Fin.sum_univ_five] at h
  fin_cases k <;> simp <;> by_contra hk <;> simp [hk] at h <;> revert h <;>
    split_ifs <;> omega

theorem countAt_update_eq {Pc : Type} [DecidableEq Pc] (f : Fin 5 → Thread Pc) (r : Fin 5)
    (v : Thread Pc) (X : Pc) :
    countAt (Function.update f r v) X
      = countAt f X - (if (f r).pc = X then 1 else 0) + (if v.pc = X then 1 else 0) := by
  unfold countAt
  rw [tally_update_eq]
  simp

theorem countAt_self {Pc : Type} [DecidableEq Pc] (f : Fin 5 → Thread Pc) (r : Fin 5) :
    1 ≤ countAt f (f r).pc := by
  unfold countAt
  have := tally_self_le (fun _ t => decide (t.pc = (f r).pc)) f r
  simpa using this

theorem nextIter_cases {Pc : Type} (bound : Nat) (top fin : Pc) (i : Nat) :
    (i + 1 < bound ∧ nextIter bound top fin i = ⟨top, i + 1⟩)
      ∨ (bound ≤ i + 1 ∧ nextIter bound top fin i = ⟨fin, i + 1⟩) := by
  unfold nextIter
  split
  · left; exact ⟨by assumption, rfl⟩
  · right; exact ⟨by omega, rfl⟩

theorem countAt_pos {Pc : Type} [DecidableEq Pc] (f : Fin 5 → Thread Pc) (X : Pc)
    (h : 0 < countAt f X) : ∃ k, (f k).pc = X := by
  obtain ⟨k, hk⟩ := tally_pos _ f h
  exact ⟨k, by simpa using hk⟩

theorem countAt_eq_five {Pc : Type} [DecidableEq Pc] (f : Fin 5 → Thread Pc) (X : Pc)
    (h : countAt f X = 5) (k : Fin 5) : (f k).pc = X := by
  have := tally_eq_five _ f h k
  simpa using this

theorem countAt_of_all {Pc : Type} [DecidableEq Pc] (f : Fin 5 → Thread Pc) (Y : Pc)
    (h : ∀ k, (f k).pc = Y) (X : Pc) : countAt f X = if Y = X then 5 else 0 := by
  unfold countAt tally
  simp [h]

/-! ### Proofs: no-starve readers-writers -/

namespace NoStarveRW

theorem fair_inv_init : Inv init := by
  constructor <;> simp [init, countAt, tally]

set_option maxHeartbeats 4000000 in
theorem fair_inv_reader (k : Fin 5) (s s' : State) (hI : Inv s) (h : reader k s = some s') :
    Inv s' := by
  obtain ⟨h1, h1', h2, h3, h3', h4, h5, h6⟩ := hI
  have hself := countAt_self s.readers k
  cases hpc : (s.readers k).pc <;> simp only [reader, hpc, h1] at h <;>
  (try split at h) <;> cases h <;> rw [hpc] at hself <;> constructor <;>
  first
    | (simp only [countAt_update_eq, hpc, h1, reduceCtorEq, if_true, if_false, Nat.sub_zero,
        Nat.add_zero, true_iff, false_iff, eq_self_iff_true, Nat.cast_add, Nat.cast_one,
        Nat.cast_zero]
       omega)
    | (rcases nextIter_cases 5 RPc.turnstileWait RPc.done (s.readers k).i with ⟨_, hn⟩ | ⟨_, hn⟩ <;>
       simp only [hn, countAt_update_eq, hpc, h1, reduceCtorEq, if_true, if_false, Nat.sub_zero,
        Nat.add_zero, true_iff, false_iff, eq_self_iff_true, Nat.cast_add, Nat.cast_one,
        Nat.cast_zero] <;>
       omega)

set_option maxHeartbeats 4000000 in
theorem fair_inv_writer (k : Fin 5) (s s' : State) (hI : Inv s) (h : writer k s = some s') :
    Inv s' := by
  obtain ⟨h1, h1', h2, h3, h3', h4, h5, h6⟩ := hI
  have hself := countAt_self s.writers k
  cases hpc : (s.writers k).pc <;> simp only [writer, hpc, h1] at h <;>
  (try split at h) <;> cases h <;> rw [hpc] at hself <;> constructor <;>
  first
    | (simp only [countAt_update_eq, hpc, h1, reduceCtorEq, if_true, if_false, Nat.sub_zero,
        Nat.add_zero, true_iff, false_iff, eq_self_iff_true, Nat.cast_add, Nat.cast_one,
        Nat.cast_zero]
       omega)
    | (rcases nextIter_cases 5 WPc.turnstileWait WPc.done (s.writers k).i with ⟨_, hn⟩ | ⟨_, hn⟩ <;>
       simp only [hn, countAt_update_eq, hpc, h1, reduceCtorEq, if_true, if_false, Nat.sub_zero,
        Nat.add_zero, true_iff, false_iff, eq_self_iff_true, Nat.cast_add, Nat.cast_one,
        Nat.cast_zero] <;>
       omega)

theorem fair_inv_reachable (s : State) (h : Reachable s) : Inv s := by
  induction h with
  | init => exact fair_inv_init
  | step _ hstep ih =>
    rcases hstep with ⟨k, hk⟩ | ⟨k, hk⟩
    · exact fair_inv_reader k _ _ ih hk
    · exact fair_inv_writer k _ _ ih hk

/-- C1: in every reachable state of NoStarveRW at most one writer is between
its `roomEmpty.wait()` and its `roomEmpty.signal()`, and while a writer is
there no reader is between the unlock that ends its entry section and the
lock that starts its exit section. -/
theorem fair_mutual_exclusion (s : State) (h : Reachable s) :
    writersInside s ≤ 1 ∧ (0 < writersInside s → readersInside s = 0) := by
  obtain ⟨h1, h1', h2, h3, h3', h4, h5, h6⟩ := fair_inv_reachable s h
  unfold writersInside readersInside
  omega

theorem fair_readers_partition (f : Fin 5 → Thread RPc) :
    countAt f RPc.turnstileWait + countAt f RPc.turnstileSignal + countAt f RPc.lockIn
      + countAt f RPc.incr + countAt f RPc.testFirst + countAt f RPc.roomWait
      + countAt f RPc.unlockIn + countAt f RPc.read + countAt f RPc.lockOut
      + countAt f RPc.decr + countAt f RPc.testLast + countAt f RPc.roomSignal
      + countAt f RPc.unlockOut + countAt f RPc.done = 5 := by
  have one : ∀ t : Thread RPc,
      (if t.pc = RPc.turnstileWait then 1 else 0) + (if t.pc = RPc.turnstileSignal then 1 else 0)
        + (if t.pc = RPc.lockIn then 1 else 0) + (if t.pc = RPc.incr then 1 else 0)
        + (if t.pc = RPc.testFirst then 1 else 0) + (if t.pc = RPc.roomWait then 1 else 0)
        + (if t.pc = RPc.unlockIn then 1 else 0) + (if t.pc = RPc.read then 1 else 0)
        + (if t.pc = RPc.lockOut then 1 else 0) + (if t.pc = RPc.decr then 1 else 0)
        + (if t.pc = RPc.testLast then 1 else 0) + (if t.pc = RPc.roomSignal then 1 else 0)
        + (if t.pc = RPc.unlockOut then 1 else 0) + (if t.pc = RPc.done then 1 else 0) = 1 := by
    intro t
    cases t.pc <;> rfl
  have h0 := one (f 0)
  have h1 := one (f 1)
  have h2 := one (f 2)
  have h3 := one (f 3)
  have h4 := one (f 4)
  simp only [countAt, tally, Fin.sum_univ_five, decide_eq_true_eq]
  omega

theorem fair_writers_partition (f : Fin 5 → Thread WPc) :
    countAt f WPc.turnstileWait + countAt f WPc.roomWait + countAt f WPc.turnstileSignal
      + countAt f WPc.write + countAt f WPc.roomSignal + countAt f WPc.done = 5 := by
  have one : ∀ t : Thread WPc,
      (if t.pc = WPc.turnstileWait then 1 else 0) + (if t.pc = WPc.roomWait then 1 else 0)
        + (if t.pc = WPc.turnstileSignal then 1 else 0) + (if t.pc = WPc.write then 1 else 0)
        + (if t.pc = WPc.roomSignal then 1 else 0) + (if t.pc = WPc.done then 1 else 0) = 1 := by
    intro t
    cases t.pc <;> rfl
  have h0 := one (f 0)
  have h1 := one (f 1)
  have h2 := one (f 2)
  have h3 := one (f 3)
  have h4 := one (f 4)
  simp only [countAt, tally, Fin.sum_univ_five, decide_eq_true_eq]
  omega

theorem fair_iter_init : IterInv init := by
  constructor <;> intro k <;> simp [init, Thread.InLoop]

theorem fair_iter_reader (k : Fin 5) (s s' : State) (hI : IterInv s) (h : reader k s = some s') :
    IterInv s' := by
  obtain ⟨hr, hw⟩ := hI
  have hk := hr k
  unfold Thread.InLoop at hk
  cases hpc : (s.readers k).pc <;> simp only [reader, hpc] at h <;>
  (try split at h) <;> cases h <;> refine ⟨fun j => ?_, hw⟩ <;>
  by_cases hj : j = k <;>
  simp [hj, Function.update_apply, Thread.InLoop, nextIter, hr, hpc] at hk ⊢ <;>
  first | omega | exact hr j | (split <;> simp <;> omega)

theorem fair_iter_writer (k : Fin 5) (s s' : State) (hI : IterInv s) (h : writer k s = some s') :
    IterInv s' := by
  obtain ⟨hr, hw⟩ := hI
  have hk := hw k
  unfold Thread.InLoop at hk
  cases hpc : (s.writers k).pc <;> simp only [writer, hpc] at h <;>
  (try split at h) <;> cases h <;> refine ⟨hr, fun j => ?_⟩ <;>
  by_cases hj : j = k <;>
  simp [hj, Function.update_apply, Thread.InLoop, nextIter, hw, hpc] at hk ⊢ <;>
  first | omega | exact hw j | (split <;> simp <;> omega)

theorem fair_iter_reachable (s : State) (h : Reachable s) : IterInv s := by
  induction h with
  | init => exact fair_iter_init
  | step _ hstep ih =>
    rcases hstep with ⟨k, hk⟩ | ⟨k, hk⟩
    · exact fair_iter_reader k _ _ ih hk
    · exact fair_iter_writer k _ _ ih hk

theorem fair_reader_none (s : State) (k : Fin 5) (h : reader k s = none) :
    readerBlocked s (s.readers k).pc := by
  cases hpc : (s.readers k).pc <;> simp only [reader, hpc] at h <;>
  simp [readerBlocked] <;> (try split at h) <;> simp_all

theorem fair_writer_none (s : State) (k : Fin 5) (h : writer k s = none) :
    writerBlocked s (s.writers k).pc := by
  cases hpc : (s.writers k).pc <;> simp only [writer, hpc] at h <;>
  simp [writerBlocked] <;> (try split at h) <;> simp_all

theorem fair_reader_stuck (s : State) (h : ∀ k, reader k s = none) (X : RPc)
    (hX : 0 < countAt s.readers X) : readerBlocked s X := by
  obtain ⟨k, hk⟩ := countAt_pos _ _ hX
  have := fair_reader_none s k (h k)
  rwa [hk] at this

theorem fair_writer_stuck (s : State) (h : ∀ k, writer k s = none) (X : WPc)
    (hX : 0 < countAt s.writers X) : writerBlocked s X := by
  obtain ⟨k, hk⟩ := countAt_pos _ _ hX
  have := fair_writer_none s k (h k)
  rwa [hk] at this

theorem fair_reader_free (s : State) (h : ∀ k, reader k s = none) (X : RPc)
    (hX : ¬ readerBlocked s X) : countAt s.readers X = 0 := by
  by_contra hne
  exact hX (fair_reader_stuck s h X (Nat.pos_of_ne_zero hne))

theorem fair_writer_free (s : State) (h : ∀ k, writer k s = none) (X : WPc)
    (hX : ¬ writerBlocked s X) : countAt s.writers X = 0 := by
  by_contra hne
  exact hX (fair_writer_stuck s h X (Nat.pos_of_ne_zero hne))

theorem fair_stuck_done (s : State) (hI : Inv s) (hns : ∀ s', ¬ Step s s') :
    countAt s.readers RPc.done = 5 ∧ countAt s.writers WPc.done = 5 := by
  have hr : ∀ k, reader k s = none := by
    intro k
    cases hk : reader k s with
    | none => rfl
    | some s' => exact absurd (Or.inl ⟨k, hk⟩) (hns s')
  have hw : ∀ k, writer k s = none := by
    intro k
    cases hk : writer k s with
    | none => rfl
    | some s' => exact absurd (Or.inr ⟨k, hk⟩) (hns s')
  obtain ⟨h1, h1', h2, h3, h3', h4, h5, h6⟩ := hI
  have r1 : 0 < countAt s.readers RPc.turnstileWait → s.turnstile = 0 :=
    fair_reader_stuck s hr RPc.turnstileWait
  have r2 : countAt s.readers RPc.turnstileSignal = 0 := fair_reader_free s hr RPc.turnstileSignal id
  have r3 := fun h => h1.1 (fair_reader_stuck s hr RPc.lockIn h)
  have r4 : countAt s.readers RPc.incr = 0 := fair_reader_free s hr RPc.incr id
  have r5 : countAt s.readers RPc.testFirst = 0 := fair_reader_free s hr RPc.testFirst id
  have r6 : 0 < countAt s.readers RPc.roomWait → s.roomEmpty = 0 :=
    fair_reader_stuck s hr RPc.roomWait
  have r7 : countAt s.readers RPc.unlockIn = 0 := fair_reader_free s hr RPc.unlockIn id
  have r8 : countAt s.readers RPc.read = 0 := fair_reader_free s hr RPc.read id
  have r9 := fun h => h1.1 (fair_reader_stuck s hr RPc.lockOut h)
  have r10 : countAt s.readers RPc.decr = 0 := fair_reader_free s hr RPc.decr id
  have r11 : countAt s.readers RPc.testLast = 0 := fair_reader_free s hr RPc.testLast id
  have r12 : countAt s.readers RPc.roomSignal = 0 := fair_reader_free s hr RPc.roomSignal id
  have r13 : countAt s.readers RPc.unlockOut = 0 := fair_reader_free s hr RPc.unlockOut id
  have w1 : 0 < countAt s.writers WPc.turnstileWait → s.turnstile = 0 :=
    fair_writer_stuck s hw WPc.turnstileWait
  have w2 : 0 < countAt s.writers WPc.roomWait → s.roomEmpty = 0 :=
    fair_writer_stuck s hw WPc.roomWait
  have w3 : countAt s.writers WPc.turnstileSignal = 0 := fair_writer_free s hw WPc.turnstileSignal id
  have w4 : countAt s.writers WPc.write = 0 := fair_writer_free s hw WPc.write id
  have w5 : countAt s.writers WPc.roomSignal = 0 := fair_writer_free s hw WPc.roomSignal id
  have pr := fair_readers_partition s.readers
  have pw := fair_writers_partition s.writers
  clear hr hw hns
  simp only [r2, r4, r5, r7, r8, r10, r11, r12, r13, w3, w4, w5,
    Nat.add_zero, Nat.zero_add, lt_self_iff_false, false_imp_iff, true_imp_iff]
    at h1' h2 h3 h3' h4 h5 h6 pr pw
  have e6 : countAt s.readers RPc.roomWait = 0 := by omega
  have e9 : countAt s.readers RPc.lockOut = 0 := by omega
  have e3 : countAt s.readers RPc.lockIn = 0 := by omega
  have f2 : countAt s.writers WPc.roomWait = 0 := by omega
  have dr : countAt s.readers RPc.done = 5 := by omega
  have dw : countAt s.writers WPc.done = 5 := by omega
  exact ⟨dr, dw⟩

theorem fair_progress (s : State) (hI : Inv s) (hL : IterInv s) :
    AllDone s ∨ ∃ s', Step s s' := by
  by_contra hcon
  push_neg at hcon
  obtain ⟨hnd, hns⟩ := hcon
  obtain ⟨dr, dw⟩ := fair_stuck_done s hI hns
  apply hnd
  constructor
  · intro k
    have := countAt_eq_five _ _ dr k
    exact ⟨this, (hL.1 k).1 this⟩
  · intro k
    have := countAt_eq_five _ _ dw k
    exact ⟨this, (hL.2 k).1 this⟩

theorem fair_restored (s : State) (hI : Inv s) (hd : AllDone s) :
    s.turnstile = 1 ∧ s.roomEmpty = 1 ∧ s.readersMutex = false ∧ s.readersCount = 0 := by
  obtain ⟨h1, h1', h2, h3, h3', h4, h5, h6⟩ := hI
  have cr := countAt_of_all s.readers RPc.done (fun k => (hd.1 k).1)
  have cw := countAt_of_all s.writers WPc.done (fun k => (hd.2 k).1)
  simp only [cr, cw, reduceCtorEq, if_false] at h1 h2 h3 h4
  simp at h1 h2 h3 h4
  exact ⟨h4, h3, h1, h2⟩

theorem fair_reachable_exec (a : Actor) (s : State) (h : Reachable s) : Reachable (exec a s) := by
  cases a with
  | reader k =>
    show Reachable ((reader k s).getD s)
    cases hk : reader k s with
    | none => exact h
    | some s' => exact Reachable.step h (Or.inl ⟨k, hk⟩)
  | writer k =>
    show Reachable ((writer k s).getD s)
    cases hk : writer k s with
    | none => exact h
    | some s' => exact Reachable.step h (Or.inr ⟨k, hk⟩)

theorem fair_reachable_run (l : List Actor) (s : State) (h : Reachable s) : Reachable (run l s) := by
  induction l generalizing s with
  | nil => exact h
  | cons a l ih => exact ih _ (fair_reachable_exec a s h)

theorem fair_mutual_exclusion_witness :
    writersInside writerInside = 1 ∧ readersInside writerInside = 0 :=
  ⟨by decide,
    (fair_mutual_exclusion writerInside (fair_reachable_run _ _ Reachable.init)).2 (by decide)⟩

theorem fair_agree_eq (s t : State) (h : State.Agree s t) : s = t := by
  obtain ⟨h0, h1, h2, h3, h4, h5, h6⟩ := h
  cases s
  cases t
  simp only [State.mk.injEq]
  exact ⟨h0, h1, h2, h3, funext h4, funext h5, h6⟩

set_option maxRecDepth 100000 in
theorem fair_solo_reader (n : Fin 5) :
    State.Agree (run (List.replicate 65 (Actor.reader n)) (afterThreads n.val 0))
      (afterThreads (n.val + 1) 0) := by
  revert n
  decide

set_option maxRecDepth 100000 in
theorem fair_solo_writer (m : Fin 5) :
    State.Agree (run (List.replicate 25 (Actor.writer m)) (afterThreads 5 m.val))
      (afterThreads 5 (m.val + 1)) := by
  revert m
  decide

theorem fair_reachable_afterReaders (n : Nat) (hn : n ≤ 5) : Reachable (afterThreads n 0) := by
  induction n with
  | zero =>
    have : afterThreads 0 0 = init := fair_agree_eq _ _ (by decide)
    rw [this]
    exact Reachable.init
  | succ n ih =>
    have h := fair_reachable_run (List.replicate 65 (Actor.reader ⟨n, by omega⟩)) _
      (ih (by omega))
    rwa [fair_agree_eq _ _ (fair_solo_reader ⟨n, by omega⟩)] at h

theorem fair_reachable_afterThreads (m : Nat) (hm : m ≤ 5) : Reachable (afterThreads 5 m) := by
  induction m with
  | zero => exact fair_reachable_afterReaders 5 (le_refl 5)
  | succ m ih =>
    have h := fair_reachable_run (List.replicate 25 (Actor.writer ⟨m, by omega⟩)) _
      (ih (by omega))
    rwa [fair_agree_eq _ _ (fair_solo_writer ⟨m, by omega⟩)] at h

end NoStarveRW

/-! ### Proofs: writer-priority readers-writers -/

namespace WriterPriorityRW

theorem prio_inv_init : Inv init := by
  constructor <;> simp [init, countAt, tally]

set_option maxHeartbeats 4000000 in
theorem prio_inv_reader (k : Fin 5) (s s' : State) (hI : Inv s) (h : reader k s = some s') :
    Inv s' := by
  obtain ⟨hrm, hrm', hwm, hwm', hrc, hwc, hfree, hshared, hopen, hclosed, hrf, hrl, hwf, hwl⟩ := hI
  have hself := countAt_self s.readers k
  cases hpc : (s.readers k).pc <;> simp only [reader, hpc, hrm, hwm] at h <;>
  (try split at h) <;> cases h <;> rw [hpc] at hself <;>
  (refine ⟨?_, ?_, ?_, ?_, ?_, ?_, ?_, ?_, ?_, ?_, ?_, ?_, ?_, ?_⟩ <;>
  [ (clear hwm' hrc hwc hfree hshared hopen hclosed hrf hrl hwf hwl
     first
      | (simp only [countAt_update_eq, hpc, hrm, hwm, reduceCtorEq, if_true, if_false,
            Nat.sub_zero, Nat.add_zero, true_iff, false_iff, eq_self_iff_true,
            Nat.cast_add, Nat.cast_one, Nat.cast_zero]
         omega)
      | (rcases nextIter_cases 5 RPc.queueWait RPc.done (s.readers k).i with ⟨_, hn⟩ | ⟨_, hn⟩ <;>
         simp only [hn, countAt_update_eq, hpc, hrm, hwm, reduceCtorEq, if_true, if_false,
            Nat.sub_zero, Nat.add_zero, true_iff, false_iff, eq_self_iff_true,
            Nat.cast_add, Nat.cast_one, Nat.cast_zero] <;>
         omega));
    (clear hwm' hrc hwc hfree hshared hopen hclosed hrf hrl hwf hwl
     first
      | (simp only [countAt_update_eq, hpc, hrm, hwm, reduceCtorEq, if_true, if_false,
            Nat.sub_zero, Nat.add_zero, true_iff, false_iff, eq_self_iff_true,
            Nat.cast_add, Nat.cast_one, Nat.cast_zero]
         omega)
      | (rcases nextIter_cases 5 RPc.queueWait RPc.done (s.readers k).i with ⟨_, hn⟩ | ⟨_, hn⟩ <;>
         simp only [hn, countAt_update_eq, hpc, hrm, hwm, reduceCtorEq, if_true, if_false,
            Nat.sub_zero, Nat.add_zero, true_iff, false_iff, eq_self_iff_true,
            Nat.cast_add, Nat.cast_one, Nat.cast_zero] <;>
         omega));
    exact hwm;
    exact hwm';
    (clear hwm' hwc hfree hshared hopen hclosed hrf hrl hwf hwl
     first
      | (simp only [countAt_update_eq, hpc, hrm, hwm, reduceCtorEq, if_true, if_false,
            Nat.sub_zero, Nat.add_zero, true_iff, false_iff, eq_self_iff_true,
            Nat.cast_add, Nat.cast_one, Nat.cast_zero]
         omega)
      | (rcases nextIter_cases 5 RPc.queueWait RPc.done (s.readers k).i with ⟨_, hn⟩ | ⟨_, hn⟩ <;>
         simp only [hn, countAt_update_eq, hpc, hrm, hwm, reduceCtorEq, if_true, if_false,
            Nat.sub_zero, Nat.add_zero, true_iff, false_iff, eq_self_iff_true,
            Nat.cast_add, Nat.cast_one, Nat.cast_zero] <;>
         omega));
    exact hwc;
    (clear hwm' hwc hopen hclosed hwf hwl
     first
      | (simp only [countAt_update_eq, hpc, hrm, hwm, reduceCtorEq, if_true, if_false,
            Nat.sub_zero, Nat.add_zero, true_iff, false_iff, eq_self_iff_true,
            Nat.cast_add, Nat.cast_one, Nat.cast_zero]
         omega)
      | (rcases nextIter_cases 5 RPc.queueWait RPc.done (s.readers k).i with ⟨_, hn⟩ | ⟨_, hn⟩ <;>
         simp only [hn, countAt_update_eq, hpc, hrm, hwm, reduceCtorEq, if_true, if_false,
            Nat.sub_zero, Nat.add_zero, true_iff, false_iff, eq_self_iff_true,
            Nat.cast_add, Nat.cast_one, Nat.cast_zero] <;>
         omega));
    (clear hwm' hwc hopen hclosed hwf hwl
     first
      | (simp only [countAt_update_eq, hpc, hrm, hwm, reduceCtorEq, if_true, if_false,
            Nat.sub_zero, Nat.add_zero, true_iff, false_iff, eq_self_iff_true,
            Nat.cast_add, Nat.cast_one, Nat.cast_zero]
         omega)
      | (rcases nextIter_cases 5 RPc.queueWait RPc.done (s.readers k).i with ⟨_, hn⟩ | ⟨_, hn⟩ <;>
         simp only [hn, countAt_update_eq, hpc, hrm, hwm, reduceCtorEq, if_true, if_false,
            Nat.sub_zero, Nat.add_zero, true_iff, false_iff, eq_self_iff_true,
            Nat.cast_add, Nat.cast_one, Nat.cast_zero] <;>
         omega));
    (clear hrm' hrc hfree hshared hrf hrl
     first
      | (simp only [countAt_update_eq, hpc, hrm, hwm, reduceCtorEq, if_true, if_false,
            Nat.sub_zero, Nat.add_zero, true_iff, false_iff, eq_self_iff_true,
            Nat.cast_add, Nat.cast_one, Nat.cast_zero]
         omega)
      | (rcases nextIter_cases 5 RPc.queueWait RPc.done (s.readers k).i with ⟨_, hn⟩ | ⟨_, hn⟩ <;>
         simp only [hn, countAt_update_eq, hpc, hrm, hwm, reduceCtorEq, if_true, if_false,
            Nat.sub_zero, Nat.add_zero, true_iff, false_iff, eq_self_iff_true,
            Nat.cast_add, Nat.cast_one, Nat.cast_zero] <;>
         omega));
    (clear hrm' hrc hfree hshared hrf hrl
     first
      | (simp only [countAt_update_eq, hpc, hrm, hwm, reduceCtorEq, if_true, if_false,
            Nat.sub_zero, Nat.add_zero, true_iff, false_iff, eq_self_iff_true,
            Nat.cast_add, Nat.cast_one, Nat.cast_zero]
         omega)
      | (rcases nextIter_cases 5 RPc.queueWait RPc.done (s.readers k).i with ⟨_, hn⟩ | ⟨_, hn⟩ <;>
         simp only [hn, countAt_update_eq, hpc, hrm, hwm, reduceCtorEq, if_true, if_false,
            Nat.sub_zero, Nat.add_zero, true_iff, false_iff, eq_self_iff_true,
            Nat.cast_add, Nat.cast_one, Nat.cast_zero] <;>
         omega));
    (clear hwm' hwc hfree hshared hopen hclosed hrl hwf hwl
     first
      | (simp only [countAt_update_eq, hpc, hrm, hwm, reduceCtorEq, if_true, if_false,
            Nat.sub_zero, Nat.add_zero, true_iff, false_iff, eq_self_iff_true,
            Nat.cast_add, Nat.cast_one, Nat.cast_zero]
         omega)
      | (rcases nextIter_cases 5 RPc.queueWait RPc.done (s.readers k).i with ⟨_, hn⟩ | ⟨_, hn⟩ <;>
         simp only [hn, countAt_update_eq, hpc, hrm, hwm, reduceCtorEq, if_true, if_false,
            Nat.sub_zero, Nat.add_zero, true_iff, false_iff, eq_self_iff_true,
            Nat.cast_add, Nat.cast_one, Nat.cast_zero] <;>
         omega));
    (clear hwm' hwc hfree hshared hopen hclosed hrf hwf hwl
     first
      | (simp only [countAt_update_eq, hpc, hrm, hwm, reduceCtorEq, if_true, if_false,
            Nat.sub_zero, Nat.add_zero, true_iff, false_iff, eq_self_iff_true,
            Nat.cast_add, Nat.cast_one, Nat.cast_zero]
         omega)
      | (rcases nextIter_cases 5 RPc.queueWait RPc.done (s.readers k).i with ⟨_, hn⟩ | ⟨_, hn⟩ <;>
         simp only [hn, countAt_update_eq, hpc, hrm, hwm, reduceCtorEq, if_true, if_false,
            Nat.sub_zero, Nat.add_zero, true_iff, false_iff, eq_self_iff_true,
            Nat.cast_add, Nat.cast_one, Nat.cast_zero] <;>
         omega));
    exact hwf;
    exact hwl ])

set_option maxHeartbeats 4000000 in
theorem prio_inv_writer (k : Fin 5) (s s' : State) (hI : Inv s) (h : writer k s = some s') :
    Inv s' := by
  obtain ⟨hrm, hrm', hwm, hwm', hrc, hwc, hfree, hshared, hopen, hclosed, hrf, hrl, hwf, hwl⟩ := hI
  have hself := countAt_self s.writers k
  cases hpc : (s.writers k).pc <;> simp only [writer, hpc, hrm, hwm] at h <;>
  (try split at h) <;> cases h <;> rw [hpc] at hself <;>
  (refine ⟨?_, ?_, ?_, ?_, ?_, ?_, ?_, ?_, ?_, ?_, ?_, ?_, ?_, ?_⟩ <;>
  [ exact hrm;
    exact hrm';
    (clear hrm' hrc hwc hfree hshared hopen hclosed hrf hrl hwf hwl
     first
      | (simp only [countAt_update_eq, hpc, hrm, hwm, reduceCtorEq, if_true, if_false,
            Nat.sub_zero, Nat.add_zero, true_iff, false_iff, eq_self_iff_true,
            Nat.cast_add, Nat.cast_one, Nat.cast_zero]
         omega)
      | (rcases nextIter_cases 5 WPc.lockIn WPc.done (s.writers k).i with ⟨_, hn⟩ | ⟨_, hn⟩ <;>
         simp only [hn, countAt_update_eq, hpc, hrm, hwm, reduceCtorEq, if_true, if_false,
            Nat.sub_zero, Nat.add_zero, true_iff, false_iff, eq_self_iff_true,
            Nat.cast_add, Nat.cast_one, Nat.cast_zero] <;>
         omega));
    (clear hrm' hrc hwc hfree hshared hopen hclosed hrf hrl hwf hwl
     first
      | (simp only [countAt_update_eq, hpc, hrm, hwm, reduceCtorEq, if_true, if_false,
            Nat.sub_zero, Nat.add_zero, true_iff, false_iff, eq_self_iff_true,
            Nat.cast_add, Nat.cast_one, Nat.cast_zero]
         omega)
      | (rcases nextIter_cases 5 WPc.lockIn WPc.done (s.writers k).i with ⟨_, hn⟩ | ⟨_, hn⟩ <;>
         simp only [hn, countAt_update_eq, hpc, hrm, hwm, reduceCtorEq, if_true, if_false,
            Nat.sub_zero, Nat.add_zero, true_iff, false_iff, eq_self_iff_true,
            Nat.cast_add, Nat.cast_one, Nat.cast_zero] <;>
         omega));
    exact hrc;
    (clear hrm' hrc hfree hshared hopen hclosed hrf hrl hwf hwl
     first
      | (simp only [countAt_update_eq, hpc, hrm, hwm, reduceCtorEq, if_true, if_false,
            Nat.sub_zero, Nat.add_zero, true_iff, false_iff, eq_self_iff_true,
            Nat.cast_add, Nat.cast_one, Nat.cast_zero]
         omega)
      | (rcases nextIter_cases 5 WPc.lockIn WPc.done (s.writers k).i with ⟨_, hn⟩ | ⟨_, hn⟩ <;>
         simp only [hn, countAt_update_eq, hpc, hrm, hwm, reduceCtorEq, if_true, if_false,
            Nat.sub_zero, Nat.add_zero, true_iff, false_iff, eq_self_iff_true,
            Nat.cast_add, Nat.cast_one, Nat.cast_zero] <;>
         omega));
    (clear hwm' hwc hopen hclosed hwf hwl
     first
      | (simp only [countAt_update_eq, hpc, hrm, hwm, reduceCtorEq, if_true, if_false,
            Nat.sub_zero, Nat.add_zero, true_iff, false_iff, eq_self_iff_true,
            Nat.cast_add, Nat.cast_one, Nat.cast_zero]
         omega)
      | (rcases nextIter_cases 5 WPc.lockIn WPc.done (s.writers k).i with ⟨_, hn⟩ | ⟨_, hn⟩ <;>
         simp only [hn, countAt_update_eq, hpc, hrm, hwm, reduceCtorEq, if_true, if_false,
            Nat.sub_zero, Nat.add_zero, true_iff, false_iff, eq_self_iff_true,
            Nat.cast_add, Nat.cast_one, Nat.cast_zero] <;>
         omega));
    (clear hwm' hwc hopen hclosed hwf hwl
     first
      | (simp only [countAt_update_eq, hpc, hrm, hwm, reduceCtorEq, if_true, if_false,
            Nat.sub_zero, Nat.add_zero, true_iff, false_iff, eq_self_iff_true,
            Nat.cast_add, Nat.cast_one, Nat.cast_zero]
         omega)
      | (rcases nextIter_cases 5 WPc.lockIn WPc.done (s.writers k).i with ⟨_, hn⟩ | ⟨_, hn⟩ <;>
         simp only [hn, countAt_update_eq, hpc, hrm, hwm, reduceCtorEq, if_true, if_false,
            Nat.sub_zero, Nat.add_zero, true_iff, false_iff, eq_self_iff_true,
            Nat.cast_add, Nat.cast_one, Nat.cast_zero] <;>
         omega));
    (clear hrm' hrc hfree hshared hrf hrl
     first
      | (simp only [countAt_update_eq, hpc, hrm, hwm, reduceCtorEq, if_true, if_false,
            Nat.sub_zero, Nat.add_zero, true_iff, false_iff, eq_self_iff_true,
            Nat.cast_add, Nat.cast_one, Nat.cast_zero]
         omega)
      | (rcases nextIter_cases 5 WPc.lockIn WPc.done (s.writers k).i with ⟨_, hn⟩ | ⟨_, hn⟩ <;>
         simp only [hn, countAt_update_eq, hpc, hrm, hwm, reduceCtorEq, if_true, if_false,
            Nat.sub_zero, Nat.add_zero, true_iff, false_iff, eq_self_iff_true,
            Nat.cast_add, Nat.cast_one, Nat.cast_zero] <;>
         omega));
    (clear hrm' hrc hfree hshared hrf hrl
     first
      | (simp only [countAt_update_eq, hpc, hrm, hwm, reduceCtorEq, if_true, if_false,
            Nat.sub_zero, Nat.add_zero, true_iff, false_iff, eq_self_iff_true,
            Nat.cast_add, Nat.cast_one, Nat.cast_zero]
         omega)
      | (rcases nextIter_cases 5 WPc.lockIn WPc.done (s.writers k).i with ⟨_, hn⟩ | ⟨_, hn⟩ <;>
         simp only [hn, countAt_update_eq, hpc, hrm, hwm, reduceCtorEq, if_true, if_false,
            Nat.sub_zero, Nat.add_zero, true_iff, false_iff, eq_self_iff_true,
            Nat.cast_add, Nat.cast_one, Nat.cast_zero] <;>
         omega));
    exact hrf;
    exact hrl;
    (clear hrm' hrc hfree hshared hopen hclosed hrf hrl hwl
     first
      | (simp only [countAt_update_eq, hpc, hrm, hwm, reduceCtorEq, if_true, if_false,
            Nat.sub_zero, Nat.add_zero, true_iff, false_iff, eq_self_iff_true,
            Nat.cast_add, Nat.cast_one, Nat.cast_zero]
         omega)
      | (rcases nextIter_cases 5 WPc.lockIn WPc.done (s.writers k).i with ⟨_, hn⟩ | ⟨_, hn⟩ <;>
         simp only [hn, countAt_update_eq, hpc, hrm, hwm, reduceCtorEq, if_true, if_false,
            Nat.sub_zero, Nat.add_zero, true_iff, false_iff, eq_self_iff_true,
            Nat.cast_add, Nat.cast_one, Nat.cast_zero] <;>
         omega));
    (clear hrm' hrc hfree hshared hopen hclosed hrf hrl hwf
     first
      | (simp only [countAt_update_eq, hpc, hrm, hwm, reduceCtorEq, if_true, if_false,
            Nat.sub_zero, Nat.add_zero, true_iff, false_iff, eq_self_iff_true,
            Nat.cast_add, Nat.cast_one, Nat.cast_zero]
         omega)
      | (rcases nextIter_cases 5 WPc.lockIn WPc.done (s.writers k).i with ⟨_, hn⟩ | ⟨_, hn⟩ <;>
         simp only [hn, countAt_update_eq, hpc, hrm, hwm, reduceCtorEq, if_true, if_false,
            Nat.sub_zero, Nat.add_zero, true_iff, false_iff, eq_self_iff_true,
            Nat.cast_add, Nat.cast_one, Nat.cast_zero] <;>
         omega)) ])

theorem prio_inv_reachable (s : State) (h : Reachable s) : Inv s := by
  induction h with
  | init => exact prio_inv_init
  | step _ hstep ih =>
    rcases hstep with ⟨k, hk⟩ | ⟨k, hk⟩
    · exact prio_inv_reader k _ _ ih hk
    · exact prio_inv_writer k _ _ ih hk

/-- C2: in every reachable state of WriterPriorityRW at most one writer is
between its `roomEmpty.wait()` and its `roomEmpty.signal()`, and while a
writer is there no reader is in its read section. -/
theorem prio_mutual_exclusion (s : State) (h : Reachable s) :
    writersInside s ≤ 1 ∧ (0 < writersInside s → readersInside s = 0) := by
  obtain ⟨hrm, hrm', hwm, hwm', hrc, hwc, hfree, hshared, hopen, hclosed, hrf, hrl, hwf, hwl⟩ := prio_inv_reachable s h
  unfold writersInside readersInside
  omega

theorem prio_readers_partition (f : Fin 5 → Thread RPc) :
    countAt f RPc.queueWait + countAt f RPc.queueSignal + countAt f RPc.lockIn
      + countAt f RPc.incr + countAt f RPc.testFirst + countAt f RPc.roomWait
      + countAt f RPc.unlockIn + countAt f RPc.read + countAt f RPc.lockOut
      + countAt f RPc.decr + countAt f RPc.testLast + countAt f RPc.roomSignal
      + countAt f RPc.unlockOut + countAt f RPc.done = 5 := by
  have one : ∀ t : Thread RPc,
      (if t.pc = RPc.queueWait then 1 else 0) + (if t.pc = RPc.queueSignal then 1 else 0)
        + (if t.pc = RPc.lockIn then 1 else 0) + (if t.pc = RPc.incr then 1 else 0)
        + (if t.pc = RPc.testFirst then 1 else 0) + (if t.pc = RPc.roomWait then 1 else 0)
        + (if t.pc = RPc.unlockIn then 1 else 0) + (if t.pc = RPc.read then 1 else 0)
        + (if t.pc = RPc.lockOut then 1 else 0) + (if t.pc = RPc.decr then 1 else 0)
        + (if t.pc = RPc.testLast then 1 else 0) + (if t.pc = RPc.roomSignal then 1 else 0)
        + (if t.pc = RPc.unlockOut then 1 else 0) + (if t.pc = RPc.done then 1 else 0) = 1 := by
    intro t
    cases t.pc <;> rfl
  have h0 := one (f 0)
  have h1 := one (f 1)
  have h2 := one (f 2)
  have h3 := one (f 3)
  have h4 := one (f 4)
  simp only [countAt, tally, Fin.sum_univ_five, decide_eq_true_eq]
  omega

theorem prio_writers_partition (f : Fin 5 → Thread WPc) :
    countAt f WPc.lockIn + countAt f WPc.incr + countAt f WPc.testFirst
      + countAt f WPc.queueWait + countAt f WPc.unlockIn + countAt f WPc.roomWait
      + countAt f WPc.write + countAt f WPc.roomSignal + countAt f WPc.lockOut
      + countAt f WPc.decr + countAt f WPc.testLast + countAt f WPc.queueSignal
      + countAt f WPc.unlockOut + countAt f WPc.done = 5 := by
  have one : ∀ t : Thread WPc,
      (if t.pc = WPc.lockIn then 1 else 0) + (if t.pc = WPc.incr then 1 else 0)
        + (if t.pc = WPc.testFirst then 1 else 0) + (if t.pc = WPc.queueWait then 1 else 0)
        + (if t.pc = WPc.unlockIn then 1 else 0) + (if t.pc = WPc.roomWait then 1 else 0)
        + (if t.pc = WPc.write then 1 else 0) + (if t.pc = WPc.roomSignal then 1 else 0)
        + (if t.pc = WPc.lockOut then 1 else 0) + (if t.pc = WPc.decr then 1 else 0)
        + (if t.pc = WPc.testLast then 1 else 0) + (if t.pc = WPc.queueSignal then 1 else 0)
        + (if t.pc = WPc.unlockOut then 1 else 0) + (if t.pc = WPc.done then 1 else 0) = 1 := by
    intro t
    cases t.pc <;> rfl
  have h0 := one (f 0)
  have h1 := one (f 1)
  have h2 := one (f 2)
  have h3 := one (f 3)
  have h4 := one (f 4)
  simp only [countAt, tally, Fin.sum_univ_five, decide_eq_true_eq]
  omega

theorem prio_iter_init : IterInv init := by
  constructor <;> intro k <;> simp [init, Thread.InLoop]

theorem prio_iter_reader (k : Fin 5) (s s' : State) (hI : IterInv s) (h : reader k s = some s') :
    IterInv s' := by
  obtain ⟨hr, hw⟩ := hI
  have hk := hr k
  unfold Thread.InLoop at hk
  cases hpc : (s.readers k).pc <;> simp only [reader, hpc] at h <;>
  (try split at h) <;> cases h <;> refine ⟨fun j => ?_, hw⟩ <;>
  by_cases hj : j = k <;>
  simp [hj, Function.update_apply, Thread.InLoop, nextIter, hr, hpc] at hk ⊢ <;>
  first | omega | exact hr j | (split <;> simp <;> omega)

theorem prio_iter_writer (k : Fin 5) (s s' : State) (hI : IterInv s) (h : writer k s = some s') :
    IterInv s' := by
  obtain ⟨hr, hw⟩ := hI
  have hk := hw k
  unfold Thread.InLoop at hk
  cases hpc : (s.writers k).pc <;> simp only [writer, hpc] at h <;>
  (try split at h) <;> cases h <;> refine ⟨hr, fun j => ?_⟩ <;>
  by_cases hj : j = k <;>
  simp [hj, Function.update_apply, Thread.InLoop, nextIter, hw, hpc] at hk ⊢ <;>
  first | omega | exact hw j | (split <;> simp <;> omega)

theorem prio_iter_reachable (s : State) (h : Reachable s) : IterInv s := by
  induction h with
  | init => exact prio_iter_init
  | step _ hstep ih =>
    rcases hstep with ⟨k, hk⟩ | ⟨k, hk⟩
    · exact prio_iter_reader k _ _ ih hk
    · exact prio_iter_writer k _ _ ih hk

theorem prio_reader_none (s : State) (k : Fin 5) (h : reader k s = none) :
    readerBlocked s (s.readers k).pc := by
  cases hpc : (s.readers k).pc <;> simp only [reader, hpc] at h <;>
  simp [readerBlocked] <;> (try split at h) <;> simp_all

theorem prio_reader_stuck (s : State) (h : ∀ k, reader k s = none) (X : RPc)
    (hX : 0 < countAt s.readers X) : readerBlocked s X := by
  obtain ⟨k, hk⟩ := countAt_pos _ _ hX
  have := prio_reader_none s k (h k)
  rwa [hk] at this

theorem prio_writer_none (s : State) (k : Fin 5) (h : writer k s = none) :
    writerBlocked s (s.writers k).pc := by
  cases hpc : (s.writers k).pc <;> simp only [writer, hpc] at h <;>
  simp [writerBlocked] <;> (try split at h) <;> simp_all

theorem prio_writer_stuck (s : State) (h : ∀ k, writer k s = none) (X : WPc)
    (hX : 0 < countAt s.writers X) : writerBlocked s X := by
  obtain ⟨k, hk⟩ := countAt_pos _ _ hX
  have := prio_writer_none s k (h k)
  rwa [hk] at this

theorem prio_reader_free (s : State) (h : ∀ k, reader k s = none) (X : RPc)
    (hX : ¬ readerBlocked s X) : countAt s.readers X = 0 := by
  by_contra hne
  exact hX (prio_reader_stuck s h X (Nat.pos_of_ne_zero hne))

theorem prio_writer_free (s : State) (h : ∀ k, writer k s = none) (X : WPc)
    (hX : ¬ writerBlocked s X) : countAt s.writers X = 0 := by
  by_contra hne
  exact hX (prio_writer_stuck s h X (Nat.pos_of_ne_zero hne))

theorem prio_stuck_done (s : State) (hI : Inv s) (hns : ∀ s', ¬ Step s s') :
    countAt s.readers RPc.done = 5 ∧ countAt s.writers WPc.done = 5 := by
  have hr : ∀ k, reader k s = none := by
    intro k
    cases hk : reader k s with
    | none => rfl
    | some s' => exact absurd (Or.inl ⟨k, hk⟩) (hns s')
  have hw : ∀ k, writer k s = none := by
    intro k
    cases hk : writer k s with
    | none => rfl
    | some s' => exact absurd (Or.inr ⟨k, hk⟩) (hns s')
  obtain ⟨hrm, hrm', hwm, hwm', hrc, hwc, hfree, hshared, hopen, hclosed, hrf, hrl, hwf, hwl⟩ := hI
  have r1 : 0 < countAt s.readers RPc.queueWait → s.readersQueue = 0 :=
    prio_reader_stuck s hr RPc.queueWait
  have r2 : countAt s.readers RPc.queueSignal = 0 := prio_reader_free s hr RPc.queueSignal id
  have r3 := fun h => hrm.1 (prio_reader_stuck s hr RPc.lockIn h)
  have r4 : countAt s.readers RPc.incr = 0 := prio_reader_free s hr RPc.incr id
  have r5 : countAt s.readers RPc.testFirst = 0 := prio_reader_free s hr RPc.testFirst id
  have r6 : 0 < countAt s.readers RPc.roomWait → s.roomEmpty = 0 :=
    prio_reader_stuck s hr RPc.roomWait
  have r7 : countAt s.readers RPc.unlockIn = 0 := prio_reader_free s hr RPc.unlockIn id
  have r8 : countAt s.readers RPc.read = 0 := prio_reader_free s hr RPc.read id
  have r9 := fun h => hrm.1 (prio_reader_stuck s hr RPc.lockOut h)
  have r10 : countAt s.readers RPc.decr = 0 := prio_reader_free s hr RPc.decr id
  have r11 : countAt s.readers RPc.testLast = 0 := prio_reader_free s hr RPc.testLast id
  have r12 : countAt s.readers RPc.roomSignal = 0 := prio_reader_free s hr RPc.roomSignal id
  have r13 : countAt s.readers RPc.unlockOut = 0 := prio_reader_free s hr RPc.unlockOut id
  have w1 := fun h => hwm.1 (prio_writer_stuck s hw WPc.lockIn h)
  have w2 : countAt s.writers WPc.incr = 0 := prio_writer_free s hw WPc.incr id
  have w3 : countAt s.writers WPc.testFirst = 0 := prio_writer_free s hw WPc.testFirst id
  have w4 : 0 < countAt s.writers WPc.queueWait → s.readersQueue = 0 :=
    prio_writer_stuck s hw WPc.queueWait
  have w5 : countAt s.writers WPc.unlockIn = 0 := prio_writer_free s hw WPc.unlockIn id
  have w6 : 0 < countAt s.writers WPc.roomWait → s.roomEmpty = 0 :=
    prio_writer_stuck s hw WPc.roomWait
  have w7 : countAt s.writers WPc.write = 0 := prio_writer_free s hw WPc.write id
  have w8 : countAt s.writers WPc.roomSignal = 0 := prio_writer_free s hw WPc.roomSignal id
  have w9 := fun h => hwm.1 (prio_writer_stuck s hw WPc.lockOut h)
  have w10 : countAt s.writers WPc.decr = 0 := prio_writer_free s hw WPc.decr id
  have w11 : countAt s.writers WPc.testLast = 0 := prio_writer_free s hw WPc.testLast id
  have w12 : countAt s.writers WPc.queueSignal = 0 := prio_writer_free s hw WPc.queueSignal id
  have w13 : countAt s.writers WPc.unlockOut = 0 := prio_writer_free s hw WPc.unlockOut id
  have pr := prio_readers_partition s.readers
  have pw := prio_writers_partition s.writers
  clear hr hw hns
  simp only [r2, r4, r5, r7, r8, r10, r11, r12, r13, w2, w3, w5, w7, w8, w10, w11, w12, w13,
    Nat.add_zero, Nat.zero_add, lt_self_iff_false, false_imp_iff, true_imp_iff]
    at hrm' hwm' hrc hwc hfree hshared hopen hclosed hrf hrl hwf hwl pr pw
  have e1 : countAt s.readers RPc.roomWait = 0 := by omega
  have e2 : countAt s.readers RPc.lockOut = 0 := by omega
  have e3 : countAt s.readers RPc.lockIn = 0 := by omega
  have f1 : countAt s.writers WPc.roomWait = 0 := by omega
  have f2 : countAt s.writers WPc.queueWait = 0 := by omega
  have f3 : countAt s.writers WPc.lockOut = 0 := by omega
  have f4 : countAt s.writers WPc.lockIn = 0 := by omega
  have e4 : countAt s.readers RPc.queueWait = 0 := by omega
  have dr : countAt s.readers RPc.done = 5 := by omega
  have dw : countAt s.writers WPc.done = 5 := by omega
  exact ⟨dr, dw⟩

theorem prio_progress (s : State) (hI : Inv s) (hL : IterInv s) :
    AllDone s ∨ ∃ s', Step s s' := by
  by_contra hcon
  push_neg at hcon
  obtain ⟨hnd, hns⟩ := hcon
  obtain ⟨dr, dw⟩ := prio_stuck_done s hI hns
  apply hnd
  constructor
  · intro k
    have := countAt_eq_five _ _ dr k
    exact ⟨this, (hL.1 k).1 this⟩
  · intro k
    have := countAt_eq_five _ _ dw k
    exact ⟨this, (hL.2 k).1 this⟩

theorem prio_restored (s : State) (hI : Inv s) (hd : AllDone s) :
    s.roomEmpty = 1 ∧ s.readersQueue = 1 ∧ s.readerMutex = false ∧ s.writerMutex = false
      ∧ s.readersCount = 0 ∧ s.writersCount = 0 := by
  obtain ⟨hrm, hrm', hwm, hwm', hrc, hwc, hfree, hshared, hopen, hclosed, hrf, hrl, hwf, hwl⟩ := hI
  have cr := countAt_of_all s.readers RPc.done (fun k => (hd.1 k).1)
  have cw := countAt_of_all s.writers WPc.done (fun k => (hd.2 k).1)
  simp only [cr, cw, reduceCtorEq, if_false] at hrm hwm hrc hwc hfree hopen
  simp at hrm hwm hrc hwc hfree hopen
  exact ⟨hfree, hopen, hrm, hwm, hrc, hwc⟩

theorem prio_reachable_exec (a : Actor) (s : State) (h : Reachable s) : Reachable (exec a s) := by
  cases a with
  | reader k =>
    show Reachable ((reader k s).getD s)
    cases hk : reader k s with
    | none => exact h
    | some s' => exact Reachable.step h (Or.inl ⟨k, hk⟩)
  | writer k =>
    show Reachable ((writer k s).getD s)
    cases hk : writer k s with
    | none => exact h
    | some s' => exact Reachable.step h (Or.inr ⟨k, hk⟩)

theorem prio_reachable_run (l : List Actor) (s : State) (h : Reachable s) : Reachable (run l s) := by
  induction l generalizing s with
  | nil => exact h
  | cons a l ih => exact ih _ (prio_reachable_exec a s h)

theorem prio_mutual_exclusion_witness :
    writersInside writerInside = 1 ∧ readersInside writerInside = 0 :=
  ⟨by decide,
    (prio_mutual_exclusion writerInside (prio_reachable_run _ _ Reachable.init)).2 (by decide)⟩

/-- C7 as stated fails: after the first writer's `writersCount++` the counter
is positive while `readersQueue` is still 1, and a reader completes
`readersQueue.wait()` in that state. -/
theorem prio_gate_open_after_increment :
    Reachable writerCounted ∧ 0 < writerCounted.writersCount
      ∧ writerCounted.readersQueue = 1
      ∧ (writerCounted.readers 0).pc = RPc.queueWait
      ∧ ((reader 0 writerCounted).map (fun s' => (s'.readers 0).pc)) = some RPc.queueSignal
      ∧ ((reader 0 writerCounted).map (fun s' => s'.writersCount)) = some 1 := by
  refine ⟨prio_reachable_run _ _ Reachable.init, by decide, by decide, by decide, by decide,
    by decide⟩

/-- C7, amended: in every reachable state of WriterPriorityRW, if
`writersCount > 0` and no writer is between its `writersCount++` and the end
of `if (writersCount == 1) readersQueue.wait()`, then `readersQueue` is 0 and
no reader holds it, so no reader at `readersQueue.wait()` can move; and a
writer transition that takes `readersQueue` is made at `readersQueue.wait()`
by a writer that found `writersCount == 1`. -/
theorem prio_gate_closed (s : State) (h : Reachable s) :
    (0 < s.writersCount → writersEntering s = 0 →
        s.readersQueue = 0 ∧ readersHoldingQueue s = 0
          ∧ (∀ k, (s.readers k).pc = RPc.queueWait → reader k s = none))
    ∧ (∀ k s', writer k s = some s' → s'.readersQueue < s.readersQueue →
        (s.writers k).pc = WPc.queueWait ∧ s.writersCount = 1) := by
  obtain ⟨hrm, hrm', hwm, hwm', hrc, hwc, hfree, hshared, hopen, hclosed, hrf, hrl, hwf, hwl⟩ := prio_inv_reachable s h
  constructor
  · intro hc he
    unfold writersEntering at he
    unfold readersHoldingQueue
    have hq : s.readersQueue = 0 ∧ countAt s.readers RPc.queueSignal = 0 := by omega
    refine ⟨hq.1, hq.2, ?_⟩
    intro k hk
    simp [reader, hk, hq.1]
  · intro k s' hk hlt
    have hself := countAt_self s.writers k
    cases hpc : (s.writers k).pc <;> simp only [writer, hpc] at hk <;>
    (try split at hk) <;> cases hk <;> simp at hlt
    rw [hpc] at hself
    exact ⟨rfl, hwf (by omega)⟩

theorem prio_gate_closed_witness :
    ((0 : Int) < gateTaken.writersCount ∧ writersEntering gateTaken = 0
        ∧ gateTaken.readersQueue = 0)
      ∧ ((writer 0 writerAtGate).map (fun s' => s'.readersQueue) = some 0
        ∧ writerAtGate.readersQueue = 1 ∧ writerAtGate.writersCount = 1) :=
  ⟨⟨by decide, by decide,
      ((prio_gate_closed gateTaken (prio_reachable_run _ _ Reachable.init)).1
        (by decide) (by decide)).1⟩,
    ⟨by decide, by decide,
      ((prio_gate_closed writerAtGate (prio_reachable_run _ _ Reachable.init)).2 0
        ((writer 0 writerAtGate).getD writerAtGate)
        (some_getD _ _ (by decide)) (by decide)).2⟩⟩

theorem prio_agree_eq (s t : State) (h : State.Agree s t) : s = t := by
  obtain ⟨h0, h1, h2, h3, h4, h5, h6, h7, h8⟩ := h
  cases s
  cases t
  simp only [State.mk.injEq]
  exact ⟨h0, h1, h2, h3, h4, h5, funext h6, funext h7, h8⟩

set_option maxRecDepth 100000 in
theorem prio_solo_reader (n : Fin 5) :
    State.Agree (run (List.replicate 65 (Actor.reader n)) (afterThreads n.val 0))
      (afterThreads (n.val + 1) 0) := by
  revert n
  decide

set_option maxRecDepth 100000 in
theorem prio_solo_writer (m : Fin 5) :
    State.Agree (run (List.replicate 65 (Actor.writer m)) (afterThreads 5 m.val))
      (afterThreads 5 (m.val + 1)) := by
  revert m
  decide

theorem prio_reachable_afterReaders (n : Nat) (hn : n ≤ 5) : Reachable (afterThreads n 0) := by
  induction n with
  | zero =>
    have : afterThreads 0 0 = init := prio_agree_eq _ _ (by decide)
    rw [this]
    exact Reachable.init
  | succ n ih =>
    have h := prio_reachable_run (List.replicate 65 (Actor.reader ⟨n, by omega⟩)) _
      (ih (by omega))
    rwa [prio_agree_eq _ _ (prio_solo_reader ⟨n, by omega⟩)] at h

theorem prio_reachable_afterThreads (m : Nat) (hm : m ≤ 5) : Reachable (afterThreads 5 m) := by
  induction m with
  | zero => exact prio_reachable_afterReaders 5 (le_refl 5)
  | succ m ih =>
    have h := prio_reachable_run (List.replicate 65 (Actor.writer ⟨m, by omega⟩)) _
      (ih (by omega))
    rwa [prio_agree_eq _ _ (prio_solo_writer ⟨m, by omega⟩)] at h

end WriterPriorityRW

/-! ### Statements and lemmas shared by the protocols -/

/-- C10: both readers-writers protocols are deadlock-free, and once all ten
threads have finished their five iterations every semaphore is back at 1,
every mutex is free and the counters are 0. -/
theorem rw_terminates_clean :
    (∀ s, NoStarveRW.Reachable s →
        (NoStarveRW.AllDone s ∨ ∃ s', NoStarveRW.Step s s')
        ∧ (NoStarveRW.AllDone s →
            s.turnstile = 1 ∧ s.roomEmpty = 1 ∧ s.readersMutex = false ∧ s.readersCount = 0))
    ∧ (∀ s, WriterPriorityRW.Reachable s →
        (WriterPriorityRW.AllDone s ∨ ∃ s', WriterPriorityRW.Step s s')
        ∧ (WriterPriorityRW.AllDone s →
            s.roomEmpty = 1 ∧ s.readersQueue = 1 ∧ s.readerMutex = false
              ∧ s.writerMutex = false ∧ s.readersCount = 0 ∧ s.writersCount = 0)) := by
  constructor
  · intro s h
    have hI := NoStarveRW.fair_inv_reachable s h
    exact ⟨NoStarveRW.fair_progress s hI (NoStarveRW.fair_iter_reachable s h), NoStarveRW.fair_restored s hI⟩
  · intro s h
    have hI := WriterPriorityRW.prio_inv_reachable s h
    exact ⟨WriterPriorityRW.prio_progress s hI (WriterPriorityRW.prio_iter_reachable s h),
      WriterPriorityRW.prio_restored s hI⟩

theorem rw_terminates_clean_witness :
    (NoStarveRW.AllDone (NoStarveRW.afterThreads 5 5)
      ∧ (NoStarveRW.afterThreads 5 5).turnstile = 1)
    ∧ (WriterPriorityRW.AllDone (WriterPriorityRW.afterThreads 5 5)
      ∧ (WriterPriorityRW.afterThreads 5 5).readersQueue = 1) :=
  ⟨⟨by decide,
      ((rw_terminates_clean.1 _ (NoStarveRW.fair_reachable_afterThreads 5 (le_refl 5))).2
        (by decide)).1⟩,
    ⟨by decide,
      ((rw_terminates_clean.2 _ (WriterPriorityRW.prio_reachable_afterThreads 5 (le_refl 5))).2
        (by decide)).2.1⟩⟩

/-! ### Proofs: dining philosophers, at most four seated -/

namespace Dining1

theorem room_left_ne_right (me : Fin 5) : left me ≠ right me := by
  unfold left right
  intro h
  have := congrArg Fin.val h
  simp at this
  omega

theorem room_inv_init : Inv init := by
  constructor
  · simp [init, occupancy, tally, seated]
  · intro f
    simp [init, holders, tally, holds]

theorem room_seated_at :
    seated Pc.think = false ∧ seated Pc.roomWait = false ∧ seated Pc.leftWait = true
    ∧ seated Pc.rightWait = true ∧ seated Pc.eat = true ∧ seated Pc.rightSignal = true
    ∧ seated Pc.leftSignal = true ∧ seated Pc.roomSignal = true ∧ seated Pc.done = false := by
  decide

theorem room_holds_at (me f : Fin 5) :
    holds me Pc.think f = false ∧ holds me Pc.roomWait f = false
    ∧ holds me Pc.leftWait f = false ∧ holds me Pc.rightWait f = decide (f = left me)
    ∧ holds me Pc.eat f = (decide (f = left me) || decide (f = right me))
    ∧ holds me Pc.rightSignal f = (decide (f = left me) || decide (f = right me))
    ∧ holds me Pc.leftSignal f = decide (f = left me)
    ∧ holds me Pc.roomSignal f = false ∧ holds me Pc.done f = false := by
  simp [holds]

theorem room_nextIter_pc (i : Nat) :
    (nextIter 6 Pc.think Pc.done i).pc = Pc.think
      ∨ (nextIter 6 Pc.think Pc.done i).pc = Pc.done := by
  unfold nextIter
  split <;> simp

theorem room_inv_step (me : Fin 5) (s s' : State) (hI : Inv s)
    (h : philosopher me s = some s') : Inv s' := by
  obtain ⟨hroom, hfork⟩ := hI
  have hlr := room_left_ne_right me
  have hocc := tally_self_le (fun _ t => seated t.pc) s.phil me
  have hhold := fun f => tally_self_le (fun k t => holds k t.pc f) s.phil me
  simp only [occupancy, holders] at hroom hfork
  have hn := room_nextIter_pc (s.phil me).i
  cases hpc : (s.phil me).pc <;> simp only [philosopher, hpc] at h
  all_goals (try split at h)
  all_goals cases h
  all_goals simp only [hpc, room_seated_at, room_holds_at] at hocc hhold
  all_goals constructor
  all_goals simp only [occupancy, holders, tally_update_eq, hpc]
  all_goals (try (rcases hn with hn | hn <;> simp only [hn]))
  all_goals simp only [room_seated_at, room_holds_at]
  all_goals (try (simp at hocc ⊢; omega))
  all_goals intro f
  all_goals have hf := hfork f
  all_goals have hh := hhold f
  all_goals by_cases hl : f = left me
  all_goals by_cases hr : f = right me
  all_goals simp [hl, hr, hlr, hlr.symm, Function.update_apply] at hf hh ⊢
  all_goals omega

theorem room_inv_reachable (s : State) (h : Reachable s) : Inv s := by
  induction h with
  | init => exact room_inv_init
  | step _ hstep ih =>
    obtain ⟨me, hme⟩ := hstep
    exact room_inv_step me _ _ ih hme

theorem room_iter_init : IterInv init := by
  intro k
  simp [init, Thread.InLoop]

theorem room_iter_step (me : Fin 5) (s s' : State) (hI : IterInv s)
    (h : philosopher me s = some s') : IterInv s' := by
  have hk := hI me
  unfold Thread.InLoop at hk
  cases hpc : (s.phil me).pc <;> simp only [philosopher, hpc] at h <;>
  (try split at h) <;> cases h <;> intro j <;>
  by_cases hj : j = me <;>
  simp [hj, Function.update_apply, Thread.InLoop, nextIter, hpc] at hk ⊢ <;>
  first | omega | exact hI j | (split <;> simp <;> omega)

theorem room_iter_reachable (s : State) (h : Reachable s) : IterInv s := by
  induction h with
  | init => exact room_iter_init
  | step _ hstep ih =>
    obtain ⟨me, hme⟩ := hstep
    exact room_iter_step me _ _ ih hme

theorem room_philosopher_none (s : State) (me : Fin 5) (h : philosopher me s = none) :
    blocked s me (s.phil me).pc := by
  cases hpc : (s.phil me).pc <;> simp only [philosopher, hpc] at h <;>
  simp [blocked] <;> (try split at h) <;> simp_all

theorem room_holder_exists (s : State) (hI : Inv s) (f : Fin 5) (hf : s.forks f = 0) :
    ∃ j, holds j (s.phil j).pc f = true := by
  have := hI.fork f
  unfold holders at this
  have hp : 0 < tally (fun k t => holds k t.pc f) s.phil := by omega
  exact tally_pos _ _ hp

theorem room_ring_cover (k j : Fin 5) :
    j = k ∨ j = right k ∨ j = right (right k) ∨ j = right (right (right k))
      ∨ j = right (right (right (right k))) := by
  revert k j
  decide

theorem room_stuck_done (s : State) (hI : Inv s) (hb : ∀ k, blocked s k (s.phil k).pc) :
    ∀ k, (s.phil k).pc = Pc.done := by
  -- a blocked philosopher holding a fork sits at `forks[right].wait()`
  have hold : ∀ j f, holds j (s.phil j).pc f = true →
      (s.phil j).pc = Pc.rightWait ∧ f = left j := by
    intro j f hj
    have := hb j
    cases hpc : (s.phil j).pc <;> simp [hpc, blocked, holds] at this hj ⊢
    exact hj
  have noLeft : ∀ k, (s.phil k).pc ≠ Pc.leftWait := by
    intro k hk
    have := hb k
    simp only [hk, blocked] at this
    obtain ⟨j, hj⟩ := room_holder_exists s hI _ this
    obtain ⟨hj1, hj2⟩ := hold j _ hj
    have : j = k := by simpa [left] using hj2.symm
    subst this
    rw [hk] at hj1
    cases hj1
  have chain : ∀ k, (s.phil k).pc = Pc.rightWait → (s.phil (right k)).pc = Pc.rightWait := by
    intro k hk
    have := hb k
    simp only [hk, blocked] at this
    obtain ⟨j, hj⟩ := room_holder_exists s hI _ this
    obtain ⟨hj1, hj2⟩ := hold j _ hj
    have : j = right k := by simpa [left] using hj2.symm
    rw [← this]
    exact hj1
  have noRight : ∀ k, (s.phil k).pc ≠ Pc.rightWait := by
    intro k hk
    have h1 := chain _ hk
    have h2 := chain _ h1
    have h3 := chain _ h2
    have h4 := chain _ h3
    have hall : ∀ j, (s.phil j).pc = Pc.rightWait := by
      intro j
      rcases room_ring_cover k j with h | h | h | h | h <;> rw [h] <;> assumption
    have hocc : occupancy s = 5 := by
      unfold occupancy
      exact tally_all _ _ (fun j => by simp [hall j, seated])
    have := hI.room
    omega
  have hocc : occupancy s = 0 := by
    unfold occupancy
    apply tally_eq_zero
    intro k
    have h1 := noLeft k
    have h2 := noRight k
    have := hb k
    cases hpc : (s.phil k).pc <;> simp [hpc, blocked, seated] at this h1 h2 ⊢
  intro k
  have hr := hI.room
  have h1 := noLeft k
  have h2 := noRight k
  have := hb k
  cases hpc : (s.phil k).pc <;> simp [hpc, blocked] at this h1 h2 ⊢
  omega

theorem room_progress (s : State) (hI : Inv s) (hL : IterInv s) :
    AllDone s ∨ ∃ s', Step s s' := by
  by_contra hcon
  push_neg at hcon
  obtain ⟨hnd, hns⟩ := hcon
  have hb : ∀ k, blocked s k (s.phil k).pc := by
    intro k
    apply room_philosopher_none
    cases hk : philosopher k s with
    | none => rfl
    | some s' => exact absurd ⟨k, hk⟩ (hns s')
  have hd := room_stuck_done s hI hb
  exact hnd (fun k => ⟨hd k, (hL k).1 (hd k)⟩)

/-- C3: in every reachable state of Dining1 either every philosopher has
finished its 6 iterations or some philosopher has an enabled transition, and
the circular wait (every philosopher holding its left fork and waiting for
its right fork) is unreachable. -/
theorem room_no_deadlock (s : State) (h : Reachable s) :
    (AllDone s ∨ ∃ s', Step s s') ∧ ¬ (∀ k, (s.phil k).pc = Pc.rightWait) := by
  have hI := room_inv_reachable s h
  refine ⟨room_progress s hI (room_iter_reachable s h), ?_⟩
  intro hall
  have hocc : occupancy s = 5 := by
    unfold occupancy
    exact tally_all _ _ (fun j => by simp [hall j, seated])
  have := hI.room
  omega

/-- C6: at most four philosophers are past `room.wait()`, and together with
the value of `room` they make four. -/
theorem room_bounded_occupancy (s : State) (h : Reachable s) :
    occupancy s ≤ 4 ∧ occupancy s + s.room = 4 := by
  have := (room_inv_reachable s h).room
  omega

theorem room_agree_eq (s t : State) (h : State.Agree s t) : s = t := by
  obtain ⟨h1, h2, h3, h4⟩ := h
  cases s
  cases t
  simp only [State.mk.injEq]
  exact ⟨funext h1, h2, funext h3, h4⟩

set_option maxRecDepth 100000 in
theorem room_solo_run (n : Fin 5) :
    State.Agree (run (List.replicate 48 n) (afterPhilosophers n.val))
      (afterPhilosophers (n.val + 1)) := by
  revert n
  decide

theorem room_reachable_exec (me : Fin 5) (s : State) (h : Reachable s) :
    Reachable (exec me s) := by
  unfold exec
  cases hk : philosopher me s with
  | none => exact h
  | some s' => exact Reachable.step h ⟨me, hk⟩

theorem room_reachable_run (l : List (Fin 5)) (s : State) (h : Reachable s) :
    Reachable (run l s) := by
  induction l generalizing s with
  | nil => exact h
  | cons me l ih => exact ih _ (room_reachable_exec me s h)

theorem room_reachable_afterPhilosophers (n : Nat) (hn : n ≤ 5) :
    Reachable (afterPhilosophers n) := by
  induction n with
  | zero =>
    have : afterPhilosophers 0 = init := room_agree_eq _ _ (by decide)
    rw [this]
    exact Reachable.init
  | succ n ih =>
    have h := room_reachable_run (List.replicate 48 ⟨n, by omega⟩) _ (ih (by omega))
    rwa [room_agree_eq _ _ (room_solo_run ⟨n, by omega⟩)] at h

theorem room_trace_init : TraceInv init := by
  constructor
  · intro k
    simp [init, linesOf, printed, rounds, current]
  · intro e he
    simp [init] at he

theorem room_linesOf_append (w : Nat) (l : List Event) (e : Event) :
    linesOf w (l ++ [e]) = linesOf w l ++ (if e.who = w then [e] else []) := by
  unfold linesOf
  rw [List.filter_append]
  by_cases h : e.who = w <;> simp [List.filter, h]

theorem room_trace_lines (me : Fin 5) (s s' : State)
    (h1 : ∀ k : Fin 5, linesOf (k.val + 1) s.out = printed (k.val + 1) (s.phil k))
    (h : philosopher me s = some s') (j : Fin 5) :
    linesOf (j.val + 1) s'.out = printed (j.val + 1) (s'.phil j) := by
  have hme := h1 me
  have hj' := h1 j
  by_cases hj : j = me
  · subst hj
    cases hpc : (s.phil j).pc <;> simp only [philosopher, hpc] at h <;>
    (try split at h) <;> cases h <;>
    simp [room_linesOf_append, Event.who, printed, hpc, current, nextIter, rounds] at hme ⊢ <;>
    first
      | exact hme
      | (rw [hme]; simp)
      | (split <;> simp [hme, current, rounds])
  · have hne : ¬ (me.val + 1 = j.val + 1) := by
      intro heq
      exact hj (Fin.ext (by omega))
    cases hpc : (s.phil me).pc <;> simp only [philosopher, hpc] at h <;>
    (try split at h) <;> cases h <;>
    simpa [room_linesOf_append, Event.who, Function.update_apply, hj, hne] using hj'

theorem room_trace_who (me : Fin 5) (s s' : State) (h2 : ∀ e ∈ s.out, 1 ≤ e.who ∧ e.who ≤ 5)
    (h : philosopher me s = some s') : ∀ e ∈ s'.out, 1 ≤ e.who ∧ e.who ≤ 5 := by
  have hm := me.isLt
  cases hpc : (s.phil me).pc <;> simp only [philosopher, hpc] at h <;>
  (try split at h) <;> cases h <;> intro e he <;>
  first
    | exact h2 e he
    | (simp only [List.mem_append, List.mem_singleton] at he
       rcases he with he | he
       · exact h2 e he
       · subst he
         simp only [Event.who]
         omega)

theorem room_trace_reachable (s : State) (h : Reachable s) : TraceInv s := by
  induction h with
  | init => exact room_trace_init
  | step _ hstep ih =>
    obtain ⟨me, hme⟩ := hstep
    exact ⟨room_trace_lines me _ _ ih.1 hme, room_trace_who me _ _ ih.2 hme⟩

theorem room_eating_split (l : List Event) (h : ∀ e ∈ l, 1 ≤ e.who ∧ e.who ≤ 5) :
    (l.filter Event.isEating).length
      = eatingOf 1 l + eatingOf 2 l + eatingOf 3 l + eatingOf 4 l + eatingOf 5 l := by
  induction l with
  | nil => simp [eatingOf, linesOf]
  | cons e l ih =>
    have ih := ih (fun x hx => h x (List.mem_cons_of_mem _ hx))
    obtain ⟨hlo, hhi⟩ := h e (List.mem_cons_self _ _)
    have hw : e.who = 1 ∨ e.who = 2 ∨ e.who = 3 ∨ e.who = 4 ∨ e.who = 5 := by omega
    simp only [eatingOf, linesOf] at ih ⊢
    cases he : e.isEating <;> rcases hw with hw | hw | hw | hw | hw <;>
      simp [List.filter_cons, he, hw] at ih ⊢ <;> omega

theorem room_rounds_six (w : Nat) :
    rounds w 6 = [Event.thinking w, Event.eating w 1, Event.thinking w, Event.eating w 2,
      Event.thinking w, Event.eating w 3, Event.thinking w, Event.eating w 4,
      Event.thinking w, Event.eating w 5, Event.thinking w, Event.eating w 6] := by
  simp [rounds]

/-- C9: in every complete execution of Dining1 (selector 3) there are exactly
30 "Eating" lines; the lines of each philosopher are, in order, Thinking,
Eating 1, Thinking, Eating 2, ..., Thinking, Eating 6; and `main` returns 0
after having run Dining1 only. -/
theorem room_thirty_meals (s : State) (h : Reachable s) (hd : AllDone s) :
    (s.out.filter Event.isEating).length = 30
      ∧ (∀ k : Fin 5, linesOf (k.val + 1) s.out
          = [Event.thinking (k.val + 1), Event.eating (k.val + 1) 1,
           Event.thinking (k.val + 1), Event.eating (k.val + 1) 2,
           Event.thinking (k.val + 1), Event.eating (k.val + 1) 3,
           Event.thinking (k.val + 1), Event.eating (k.val + 1) 4,
           Event.thinking (k.val + 1), Event.eating (k.val + 1) 5,
           Event.thinking (k.val + 1), Event.eating (k.val + 1) 6])
      ∧ main ["./cse4001_sync", "3"]
          = { exitCode := 0, ran := [Problem.dining1], err := [] } := by
  obtain ⟨h1, h2⟩ := room_trace_reachable s h
  have lines : ∀ k : Fin 5, linesOf (k.val + 1) s.out = rounds (k.val + 1) 6 := by
    intro k
    rw [h1 k]
    obtain ⟨hp, hi⟩ := hd k
    simp [printed, hp, hi, current]
  refine ⟨?_, ?_, by decide⟩
  · rw [room_eating_split _ h2]
    simp only [eatingOf]
    have e0 := lines 0
    have e1 := lines 1
    have e2 := lines 2
    have e3 := lines 3
    have e4 := lines 4
    simp only [Fin.val_zero, Fin.val_one, Fin.val_two, zero_add] at e0 e1 e2
    have e3' : linesOf 4 s.out = rounds 4 6 := e3
    have e4' : linesOf 5 s.out = rounds 5 6 := e4
    rw [e0, e1, e2, e3', e4']
    simp [room_rounds_six, Event.isEating]
  · intro k
    rw [lines k, room_rounds_six]

theorem room_thirty_meals_witness :
    AllDone (afterPhilosophers 5)
      ∧ ((afterPhilosophers 5).out.filter Event.isEating).length = 30 :=
  ⟨by decide,
    (room_thirty_meals (afterPhilosophers 5) (room_reachable_afterPhilosophers 5 (le_refl 5))
      (by decide)).1⟩

theorem room_no_deadlock_witness :
    fourSeated.room = 0 ∧ (fourSeated.phil 4).pc = Pc.roomWait
      ∧ (AllDone fourSeated ∨ ∃ s', Step fourSeated s') :=
  ⟨by decide, by decide, (room_no_deadlock fourSeated (room_reachable_run _ _ Reachable.init)).1⟩

theorem room_bounded_occupancy_witness :
    fourSeated.room = 0 ∧ occupancy fourSeated ≤ 4 ∧ occupancy fourSeated + fourSeated.room = 4 :=
  ⟨by decide, room_bounded_occupancy fourSeated (room_reachable_run _ _ Reachable.init)⟩

end Dining1

/-! ### Proofs: dining philosophers, asymmetric pick-up order -/

namespace Dining2

theorem asym_left_ne_right (me : Fin 5) : left me ≠ right me := by
  revert me
  decide

theorem asym_first_second (me : Fin 5) :
    (first me = right me ∧ second me = left me) ∨ (first me = left me ∧ second me = right me) := by
  revert me
  decide

theorem asym_inv_init : Inv init := by
  intro f
  simp [init, holders, tally, holds]

theorem asym_holds_at (me f : Fin 5) :
    holds me Pc.think f = false ∧ holds me Pc.firstWait f = false
    ∧ holds me Pc.secondWait f = decide (f = first me)
    ∧ holds me Pc.eat f = (decide (f = left me) || decide (f = right me))
    ∧ holds me Pc.leftSignal f = (decide (f = left me) || decide (f = right me))
    ∧ holds me Pc.rightSignal f = decide (f = right me)
    ∧ holds me Pc.done f = false := by
  simp [holds]

theorem asym_nextIter_pc (i : Nat) :
    (nextIter 6 Pc.think Pc.done i).pc = Pc.think
      ∨ (nextIter 6 Pc.think Pc.done i).pc = Pc.done := by
  unfold nextIter
  split <;> simp

theorem asym_inv_step (me : Fin 5) (s s' : State) (hI : Inv s)
    (h : philosopher me s = some s') : Inv s' := by
  have hlr := asym_left_ne_right me
  have hhold := fun f => tally_self_le (fun k t => holds k t.pc f) s.phil me
  unfold Inv at hI
  simp only [holders] at hI
  have hn := asym_nextIter_pc (s.phil me).i
  rcases asym_first_second me with ⟨h1, h2⟩ | ⟨h1, h2⟩
  all_goals cases hpc : (s.phil me).pc <;> simp only [philosopher, hpc, h1, h2] at h
  all_goals (try split at h)
  all_goals cases h
  all_goals simp only [hpc, asym_holds_at, h1] at hhold
  all_goals intro f
  all_goals simp only [holders, tally_update_eq, hpc]
  all_goals (try (rcases hn with hn | hn <;> simp only [hn]))
  all_goals simp only [asym_holds_at, h1]
  all_goals have hf := hI f
  all_goals have hh := hhold f
  all_goals by_cases hl : f = left me
  all_goals by_cases hr : f = right me
  all_goals simp [hl, hr, hlr, hlr.symm, Function.update_apply] at hf hh ⊢
  all_goals omega

theorem asym_inv_reachable (s : State) (h : Reachable s) : Inv s := by
  induction h with
  | init => exact asym_inv_init
  | step _ hstep ih =>
    obtain ⟨me, hme⟩ := hstep
    exact asym_inv_step me _ _ ih hme

theorem asym_iter_init : IterInv init := by
  intro k
  simp [init, Thread.InLoop]

theorem asym_iter_step (me : Fin 5) (s s' : State) (hI : IterInv s)
    (h : philosopher me s = some s') : IterInv s' := by
  have hk := hI me
  unfold Thread.InLoop at hk
  cases hpc : (s.phil me).pc <;> simp only [philosopher, hpc] at h <;>
  (try split at h) <;> cases h <;> intro j <;>
  by_cases hj : j = me <;>
  simp [hj, Function.update_apply, Thread.InLoop, nextIter, hpc] at hk ⊢ <;>
  first | omega | exact hI j | (split <;> simp <;> omega)

theorem asym_iter_reachable (s : State) (h : Reachable s) : IterInv s := by
  induction h with
  | init => exact asym_iter_init
  | step _ hstep ih =>
    obtain ⟨me, hme⟩ := hstep
    exact asym_iter_step me _ _ ih hme

theorem asym_philosopher_none (s : State) (me : Fin 5) (h : philosopher me s = none) :
    blocked s me (s.phil me).pc := by
  cases hpc : (s.phil me).pc <;> simp only [philosopher, hpc] at h <;>
  simp [blocked] <;> (try split at h) <;> simp_all

theorem asym_holder_exists (s : State) (hI : Inv s) (f : Fin 5) (hf : s.forks f = 0) :
    ∃ j, holds j (s.phil j).pc f = true := by
  have := hI f
  unfold holders at this
  have hp : 0 < tally (fun k t => holds k t.pc f) s.phil := by omega
  exact tally_pos _ _ hp

/-- The order in which forks are taken has no cycle of length two or more
through second forks: a chain "second fork of `a` is first fork of `b`, second
fork of `b` is first fork of `c`" does not exist. -/
theorem asym_no_chain (a b c : Fin 5) (h1 : first b = second a) (h2 : first c = second b) :
    False := by
  revert a b c
  decide

theorem asym_stuck_done (s : State) (hI : Inv s) (hb : ∀ k, blocked s k (s.phil k).pc) :
    ∀ k, (s.phil k).pc = Pc.done := by
  -- a blocked philosopher holding a fork holds its first fork and waits for the second
  have hold : ∀ j f, holds j (s.phil j).pc f = true →
      (s.phil j).pc = Pc.secondWait ∧ f = first j := by
    intro j f hj
    have := hb j
    cases hpc : (s.phil j).pc <;> simp [hpc, blocked, holds] at this hj ⊢
    exact hj
  have next : ∀ k, (s.phil k).pc = Pc.secondWait →
      ∃ j, (s.phil j).pc = Pc.secondWait ∧ first j = second k := by
    intro k hk
    have := hb k
    simp only [hk, blocked] at this
    obtain ⟨j, hj⟩ := asym_holder_exists s hI _ this
    obtain ⟨hj1, hj2⟩ := hold j _ hj
    exact ⟨j, hj1, hj2.symm⟩
  have noSecond : ∀ k, (s.phil k).pc ≠ Pc.secondWait := by
    intro k hk
    obtain ⟨j, hj, e1⟩ := next k hk
    obtain ⟨j', _, e2⟩ := next j hj
    exact asym_no_chain k j j' e1 e2
  have free : ∀ f, s.forks f = 1 := by
    intro f
    have h0 : holders s f = 0 := by
      unfold holders
      apply tally_eq_zero
      intro k
      have h2 := noSecond k
      have := hb k
      cases hpc : (s.phil k).pc <;> simp [hpc, blocked, holds] at this h2 ⊢
    have := hI f
    omega
  intro k
  have h2 := noSecond k
  have hf := free (first k)
  have := hb k
  cases hpc : (s.phil k).pc <;> simp [hpc, blocked] at this h2 ⊢
  omega

theorem asym_progress (s : State) (hI : Inv s) (hL : IterInv s) :
    AllDone s ∨ ∃ s', Step s s' := by
  by_contra hcon
  push_neg at hcon
  obtain ⟨hnd, hns⟩ := hcon
  have hb : ∀ k, blocked s k (s.phil k).pc := by
    intro k
    apply asym_philosopher_none
    cases hk : philosopher k s with
    | none => rfl
    | some s' => exact absurd ⟨k, hk⟩ (hns s')
  have hd := asym_stuck_done s hI hb
  exact hnd (fun k => ⟨hd k, (hL k).1 (hd k)⟩)

theorem asym_reachable_exec (me : Fin 5) (s : State) (h : Reachable s) :
    Reachable (exec me s) := by
  unfold exec
  cases hk : philosopher me s with
  | none => exact h
  | some s' => exact Reachable.step h ⟨me, hk⟩

theorem asym_reachable_run (l : List (Fin 5)) (s : State) (h : Reachable s) :
    Reachable (run l s) := by
  induction l generalizing s with
  | nil => exact h
  | cons me l ih => exact ih _ (asym_reachable_exec me s h)

/-- C4: in every reachable state of Dining2 either every philosopher has
finished its 6 iterations or some philosopher has an enabled transition. -/
theorem asym_no_deadlock (s : State) (h : Reachable s) :
    AllDone s ∨ ∃ s', Step s s' :=
  asym_progress s (asym_inv_reachable s h) (asym_iter_reachable s h)

theorem asym_no_deadlock_witness :
    firstForksTaken.forks 1 = 0 ∧ (firstForksTaken.phil 1).pc = Pc.firstWait
      ∧ (AllDone firstForksTaken ∨ ∃ s', Step firstForksTaken s') :=
  ⟨by decide, by decide, asym_no_deadlock firstForksTaken (asym_reachable_run _ _ Reachable.init)⟩

end Dining2

/-! ### Statements and lemmas shared by the protocols -/

/-- C5: in both dining protocols every fork is held by at most one
philosopher, and its semaphore is 0 or 1, being 1 exactly when nobody holds
the fork. -/
theorem fork_exclusive :
    (∀ s, Dining1.Reachable s → ∀ f : Fin 5,
        Dining1.holders s f ≤ 1 ∧ (s.forks f = 0 ∨ s.forks f = 1)
          ∧ (s.forks f = 1 ↔ Dining1.holders s f = 0))
    ∧ (∀ s, Dining2.Reachable s → ∀ f : Fin 5,
        Dining2.holders s f ≤ 1 ∧ (s.forks f = 0 ∨ s.forks f = 1)
          ∧ (s.forks f = 1 ↔ Dining2.holders s f = 0)) := by
  constructor
  · intro s h f
    have := (Dining1.room_inv_reachable s h).fork f
    omega
  · intro s h f
    have := Dining2.asym_inv_reachable s h f
    omega

theorem fork_exclusive_witness :
    (Dining1.fourSeated.forks 2 = 0 ∧ Dining1.holders Dining1.fourSeated 2 ≤ 1
        ∧ (Dining1.fourSeated.forks 2 = 1 ↔ Dining1.holders Dining1.fourSeated 2 = 0))
    ∧ (Dining2.firstForksTaken.forks 3 = 0 ∧ Dining2.holders Dining2.firstForksTaken 3 ≤ 1
        ∧ (Dining2.firstForksTaken.forks 3 = 1
            ↔ Dining2.holders Dining2.firstForksTaken 3 = 0)) :=
  ⟨⟨by decide,
      (fork_exclusive.1 _ (Dining1.room_reachable_run _ _ Dining1.Reachable.init) 2).1,
      (fork_exclusive.1 _ (Dining1.room_reachable_run _ _ Dining1.Reachable.init) 2).2.2⟩,
    ⟨by decide,
      (fork_exclusive.2 _ (Dining2.asym_reachable_run _ _ Dining2.Reachable.init) 3).1,
      (fork_exclusive.2 _ (Dining2.asym_reachable_run _ _ Dining2.Reachable.init) 3).2.2⟩⟩

theorem atoi_examples :
    atoi "1" = 1 ∧ atoi "4" = 4 ∧ atoi "abc" = 0 ∧ atoi "" = 0 ∧ atoi "5" = 5
      ∧ atoi "-1" = -1 ∧ atoi "3abc" = 3 ∧ atoi " +2" = 2 := by
  decide

/-- C8 as stated fails in two ways: a numeric selector `1` followed by a
further argument is rejected with exit code 1, and the non-numeric selector
`3abc` runs Dining1 and exits with 0. -/
theorem dispatch_differs :
    specDispatch ["./cse4001_sync", "1", "extra"] = (0, [Problem.noStarveRW])
      ∧ main ["./cse4001_sync", "1", "extra"]
          = { exitCode := 1, ran := [], err := [Diagnostic.usage] }
      ∧ specDispatch ["./cse4001_sync", "3abc"] = (1, [])
      ∧ main ["./cse4001_sync", "3abc"]
          = { exitCode := 0, ran := [Problem.dining1], err := [] } := by
  decide

/-- C8, amended: `main` returns 1 and runs nothing when `argc` is not 2 or
when `atoi` of the selector is not 1, 2, 3 or 4; otherwise it runs exactly
the coordinator numbered `atoi(argv[1])` and returns 0. -/
theorem main_dispatch (argv : List String) :
    (argv.length ≠ 2 →
        main argv = { exitCode := 1, ran := [], err := [Diagnostic.usage] })
    ∧ (∀ prog arg, argv = [prog, arg] →
        (atoi arg = 1 →
          main argv = { exitCode := 0, ran := [Problem.noStarveRW], err := [] })
        ∧ (atoi arg = 2 →
          main argv = { exitCode := 0, ran := [Problem.writerPriorityRW], err := [] })
        ∧ (atoi arg = 3 →
          main argv = { exitCode := 0, ran := [Problem.dining1], err := [] })
        ∧ (atoi arg = 4 →
          main argv = { exitCode := 0, ran := [Problem.dining2], err := [] })
        ∧ (atoi arg ≠ 1 → atoi arg ≠ 2 → atoi arg ≠ 3 → atoi arg ≠ 4 →
          main argv = { exitCode := 1, ran := [], err := [Diagnostic.invalidNumber] })) := by
  constructor
  · intro hlen
    match argv, hlen with
    | [], _ => rfl
    | [_], _ => rfl
    | [_, _], h => exact absurd rfl h
    | _ :: _ :: _ :: _, _ => rfl
  · intro prog arg hargv
    subst hargv
    refine ⟨?_, ?_, ?_, ?_, ?_⟩
    · intro h
      simp [main, h]
    · intro h
      simp [main, h]
    · intro h
      simp [main, h]
    · intro h
      simp [main, h]
    · intro h1 h2 h3 h4
      show (match atoi arg with
        | 1 => ({ exitCode := 0, ran := [Problem.noStarveRW], err := [] } : Outcome)
        | 2 => { exitCode := 0, ran := [Problem.writerPriorityRW], err := [] }
        | 3 => { exitCode := 0, ran := [Problem.dining1], err := [] }
        | 4 => { exitCode := 0, ran := [Problem.dining2], err := [] }
        | _ => { exitCode := 1, ran := [], err := [Diagnostic.invalidNumber] }) = _
      split <;> first | rfl | contradiction

theorem main_dispatch_witness :
    main ["./cse4001_sync", "4"] = { exitCode := 0, ran := [Problem.dining2], err := [] }
      ∧ main ["./cse4001_sync"] = { exitCode := 1, ran := [], err := [Diagnostic.usage] } :=
  ⟨((main_dispatch _).2 "./cse4001_sync" "4" rfl).2.2.2.1 (by decide),
    (main_dispatch ["./cse4001_sync"]).1 (by decide)⟩

end Sync
